import Mathlib

/-!
Verification development for the poly-5-mins repository: a shallow embedding
of its four core components (scheduler, feed client, persistence writer,
arbitrage detector) together with theorems checking the behavioural claims
made about them.

Modelling conventions:
- Python floats (prices, thresholds, clock readings) are modelled as `ℚ`.
- Python dicts are modelled as insertion-ordered association lists
  (`dictInsert` / `dictLookup` below reproduce `d[k] = v` / `d.get(k)`).
- `asyncio` coroutines are modelled as explicit step functions over a state
  type; each modelled suspension point and exception path is documented at
  the definition that embeds it.
-/

namespace Poly5m

/-- Insertion-ordered association-list update, mirroring Python `d[k] = v`:
an existing key keeps its position and gets the new value, a new key is
appended at the end. -/
def dictInsert {κ α : Type} [DecidableEq κ] (m : List (κ × α)) (k : κ) (v : α) :
    List (κ × α) :=
  match m with
  | [] => [(k, v)]
  | (k1, v1) :: rest =>
      if k1 = k then (k, v) :: rest else (k1, v1) :: dictInsert rest k v

/-- Python `d.get(k)`: first (and, on `dictInsert`-built lists, only) binding. -/
def dictLookup {κ α : Type} [DecidableEq κ] (m : List (κ × α)) (k : κ) : Option α :=
  match m with
  | [] => none
  | (k1, v1) :: rest => if k1 = k then some v1 else dictLookup rest k

/-- Python `d.get(k, default)`. -/
def dictGetD {κ α : Type} [DecidableEq κ] (m : List (κ × α)) (k : κ) (d : α) : α :=
  (dictLookup m k).getD d

/-- Keys of an association list, in insertion order (Python `d.keys()`). -/
def dictKeys {κ α : Type} [DecidableEq κ] (m : List (κ × α)) : List κ :=
  m.map Prod.fst

/-- Mirror of `MarketInfo` (src/src/gamma.py, lines 20-34).  `end_date_ts`
models `end_date_utc` as seconds on the UTC time line (a rational), which is
all the scheduler uses it for (`(end - now).total_seconds()`). -/
structure MarketInfo where
  slug : String
  condition_id : String
  end_date_ts : ℚ
  token_ids : List String
  outcomes : List String
deriving DecidableEq, Repr

/-- Mirror of the `asset_ids` property of `MarketInfo` (gamma.py lines 32-34). -/
def MarketInfo.asset_ids (m : MarketInfo) : List String := m.token_ids

/-- A single price level as it reaches `_price_from_level`
(src/src/realtime_arbitrage.py, lines 24-29): either a mapping with an
optional numeric `price` field, a sequence whose first entry is the price, or
anything else.  Numeric payload values are modelled as `ℚ`. -/
inductive Level
  | dict (price : Option ℚ)
  | arr (entries : List ℚ)
  | other
deriving DecidableEq, Repr

/-- Mirror of `_price_from_level` (realtime_arbitrage.py lines 24-29): a
mapping yields its `price` field with default 0, a non-empty sequence yields
its first entry, everything else yields 0. -/
def price_from_level : Level → ℚ
  | .dict p => p.getD 0
  | .arr [] => 0
  | .arr (x :: _) => x
  | .other => 0

/-- Mirror of `_best_bid_ask` (realtime_arbitrage.py lines 32-47): best bid is
the maximum level price with default 0 on an empty list, best ask the minimum
level price with default 1 on an empty list. -/
def best_bid_ask (bids asks : List Level) : ℚ × ℚ :=
  let best_bid :=
    match bids.map price_from_level with
    | [] => (0 : ℚ)
    | p :: ps => ps.foldl max p
  let best_ask :=
    match asks.map price_from_level with
    | [] => (1 : ℚ)
    | p :: ps => ps.foldl min p
  (best_bid, best_ask)

/-- Mirror of `_ArbitrageSignal` (realtime_arbitrage.py lines 50-57). -/
structure ArbitrageSignal where
  slug : String
  ts_ms : Int
  sum_ask : ℚ
  sum_bid : ℚ
  buy_opportunity : Bool
  sell_opportunity : Bool
deriving DecidableEq, Repr

/-- Mirror of the mutable fields of `RealtimeArbitrage`
(realtime_arbitrage.py lines 67-85).  The `asyncio.Queue` `_signal_q` is the
list `signal_q` (FIFO: `put_nowait` appends at the end), `_last_sent` maps
`(slug, direction)` to a monotonic-clock reading. -/
structure RealtimeArbitrage where
  webhook_url : String
  buy_threshold : ℚ := 99 / 100
  sell_threshold : ℚ := 101 / 100
  min_interval_sec : ℚ := 30
  book_state : List (String × ℚ × ℚ) := []
  asset_to_outcome : List (String × String) := []
  current_slug : Option String := none
  signal_q : List ArbitrageSignal := []
  last_sent : List ((String × String) × ℚ) := []
deriving DecidableEq, Repr

/-- The `dict(zip(token_ids, outcomes))` built by `set_market`
(realtime_arbitrage.py lines 91-93), including the `or` defaults and the
truncation `outcomes[:len(token_ids)]`. -/
def market_a2o (market : MarketInfo) : List (String × String) :=
  let token_ids := market.token_ids
  let outcomes :=
    (if market.outcomes = [] then ["Up", "Down"] else market.outcomes).take
      token_ids.length
  (token_ids.zip outcomes).foldl (fun m kv => dictInsert m kv.1 kv.2) []

/-- Mirror of `RealtimeArbitrage.set_market` (realtime_arbitrage.py lines
87-93): record the new slug, clear `book_state`, rebuild the
asset-to-outcome map.  No other field is touched. -/
def set_market (st : RealtimeArbitrage) (market : MarketInfo) : RealtimeArbitrage :=
  { st with
    current_slug := some market.slug
    book_state := []
    asset_to_outcome := market_a2o market }

/-- The accumulator of the `for aid, (bid, ask) in self._book_state.items()`
loop of `update_book` (realtime_arbitrage.py lines 116-122), with the
initial values `ask_up = ask_down = 1.0`, `bid_up = bid_down = 0.0`. -/
structure BookSums where
  bid_up : ℚ
  ask_up : ℚ
  bid_down : ℚ
  ask_down : ℚ
deriving DecidableEq, Repr

/-- Mirror of realtime_arbitrage.py lines 116-122: iterate the book state in
insertion order; an asset whose outcome is `"Up"` sets the up-leg values,
every other asset sets the down-leg values. -/
def book_sums (bs : List (String × ℚ × ℚ)) (a2o : List (String × String)) :
    BookSums :=
  bs.foldl
    (fun acc e =>
      if dictLookup a2o e.1 = some "Up" then
        { acc with bid_up := e.2.1, ask_up := e.2.2 }
      else
        { acc with bid_down := e.2.1, ask_down := e.2.2 })
    { bid_up := 0, ask_up := 1, bid_down := 0, ask_down := 1 }

/-- Mirror of `RealtimeArbitrage.update_book` (realtime_arbitrage.py lines
95-143): drop the call when the asset id is empty, the slug is not the
current one, or the asset is unmapped; otherwise store the best bid/ask; when
the book state then holds exactly two entries, compute the sums and, if a
threshold is crossed and a webhook is configured, append a signal to the
queue. -/
def update_book (st : RealtimeArbitrage) (slug : String) (ts_ms : Int)
    (asset_id : String) (bids asks : List Level) : RealtimeArbitrage :=
  if asset_id = "" ∨ ¬ some slug = st.current_slug then st
  else if (dictLookup st.asset_to_outcome asset_id).isNone then st
  else
    let bb := best_bid_ask bids asks
    let bs := dictInsert st.book_state asset_id bb
    let st1 := { st with book_state := bs }
    if bs.length ≠ 2 then st1
    else
      let s := book_sums bs st.asset_to_outcome
      let sum_ask := s.ask_up + s.ask_down
      let sum_bid := s.bid_up + s.bid_down
      let buy_opportunity := decide (sum_ask < st.buy_threshold)
      let sell_opportunity := decide (sum_bid > st.sell_threshold)
      if ¬ (buy_opportunity = true ∨ sell_opportunity = true) then st1
      else if st.webhook_url = "" then st1
      else
        { st1 with
          signal_q := st1.signal_q ++
            [⟨slug, ts_ms, sum_ask, sum_bid, buy_opportunity, sell_opportunity⟩] }

/-- One `update_book` call as issued by a feed handler. -/
structure UpdateCall where
  slug : String
  ts_ms : Int
  asset_id : String
  bids : List Level
  asks : List Level
deriving DecidableEq, Repr

/-- A sequence of `update_book` calls applied in order. -/
def run_updates (st : RealtimeArbitrage) (calls : List UpdateCall) :
    RealtimeArbitrage :=
  calls.foldl (fun s c => update_book s c.slug c.ts_ms c.asset_id c.bids c.asks) st

/-- The `(slug, direction)` keys of the `_last_sent` table; the direction
component is the literal `"buy"` or `"sell"` (realtime_arbitrage.py lines
147-148). -/
abbrev LastSent := List ((String × String) × ℚ)

/-- Mirror of `RealtimeArbitrage._should_send` (realtime_arbitrage.py lines
145-155): refuse when the signal carries the buy flag and the buy direction
was sent less than `min_interval_sec` ago, likewise for sell; `_last_sent`
misses default to 0. -/
def should_send (min_interval_sec : ℚ) (last_sent : LastSent) (slug : String)
    (buy_opportunity sell_opportunity : Bool) (now : ℚ) : Bool :=
  if buy_opportunity = true ∧ now - dictGetD last_sent (slug, "buy") 0 < min_interval_sec then
    false
  else if sell_opportunity = true ∧ now - dictGetD last_sent (slug, "sell") 0 < min_interval_sec then
    false
  else true

/-- Mirror of `RealtimeArbitrage._mark_sent` (realtime_arbitrage.py lines
157-162): record `now` for each direction whose flag is set. -/
def mark_sent (last_sent : LastSent) (slug : String)
    (buy_opportunity sell_opportunity : Bool) (now : ℚ) : LastSent :=
  let ls := if buy_opportunity = true then dictInsert last_sent (slug, "buy") now else last_sent
  if sell_opportunity = true then dictInsert ls (slug, "sell") now else ls

/-- One iteration of `_sender_loop` (realtime_arbitrage.py lines 164-186)
that dequeued a real signal: `t_check` is the `time.monotonic()` reading
inside `_should_send`, `post_ok` tells whether `_post_discord` returned
without raising, and `t_mark` is the `time.monotonic()` reading inside
`_mark_sent` (reached only on a successful post). -/
structure SenderEvent where
  sig : ArbitrageSignal
  t_check : ℚ
  post_ok : Bool
  t_mark : ℚ
deriving DecidableEq, Repr

/-- How one `_sender_loop` iteration disposed of its signal: gated by the
minimum-interval check (`continue`, the signal is gone), posted and marked
(`sent`), or post raised (logged and dropped, `_mark_sent` not reached). -/
inductive SenderOutcome
  | gated
  | sent
  | post_failed
deriving DecidableEq, Repr

/-- One iteration of the `_sender_loop` body for a dequeued signal
(realtime_arbitrage.py lines 176-186). -/
def sender_step (min_interval_sec : ℚ) (last_sent : LastSent) (ev : SenderEvent) :
    LastSent × SenderOutcome :=
  if should_send min_interval_sec last_sent ev.sig.slug ev.sig.buy_opportunity
      ev.sig.sell_opportunity ev.t_check = false then
    (last_sent, .gated)
  else if ev.post_ok = true then
    (mark_sent last_sent ev.sig.slug ev.sig.buy_opportunity ev.sig.sell_opportunity
       ev.t_mark,
     .sent)
  else (last_sent, .post_failed)

/-- The `_sender_loop` run over the signals it dequeues, in order.  Each
queue element is handled exactly once; the loop body contains no
`put_nowait`, so nothing is ever re-queued. -/
def sender_run (min_interval_sec : ℚ) (last_sent : LastSent) :
    List SenderEvent → List (SenderEvent × SenderOutcome)
  | [] => []
  | ev :: evs =>
      let r := sender_step min_interval_sec last_sent ev
      (ev, r.2) :: sender_run min_interval_sec r.1 evs

/-- Whether a signal carries the direction of a `(slug, direction)` key:
exactly the condition under which `_mark_sent` writes that key. -/
def has_direction (sig : ArbitrageSignal) (key : String × String) : Bool :=
  decide (sig.slug = key.1) &&
    ((decide (key.2 = "buy") && sig.buy_opportunity) ||
      (decide (key.2 = "sell") && sig.sell_opportunity))

/-- The alerts of a run that were actually dispatched (successfully posted)
for a given `(slug, direction)` key, in dispatch order. -/
def dispatched_for (key : String × String)
    (trace : List (SenderEvent × SenderOutcome)) : List SenderEvent :=
  (trace.filter
    (fun e => decide (e.2 = SenderOutcome.sent) && has_direction e.1.sig key)).map
    Prod.fst

/-- Clock sanity for a sender run: `time.monotonic()` is nondecreasing, so
within one iteration the `_should_send` reading precedes the `_mark_sent`
reading, and readings of later iterations are at least the earlier ones. -/
def TimesOk (evs : List SenderEvent) : Prop :=
  (∀ e ∈ evs, e.t_check ≤ e.t_mark) ∧
    evs.Pairwise (fun a b => a.t_mark ≤ b.t_check)

/-- Mirror of `_snapshot_row` (src/src/storage.py lines 55-63). -/
structure SnapshotRow where
  slug : String
  ts_ms : Int
  asset_id : String
  market : String
  bids : List Level
  asks : List Level
deriving DecidableEq, Repr

/-- Mirror of `_tick_row` (storage.py lines 66-87). -/
structure TickRow where
  slug : String
  ts_ms : Int
  asset_id : String
  market : String
  price : String
  size : String
  side : String
  best_bid : String
  best_ask : String
deriving DecidableEq, Repr

/-- Mirror of `_trade_row` (storage.py lines 90-99). -/
structure TradeRow where
  slug : String
  ts_ms : Int
  asset_id : String
  market : String
  price : String
  side : String
  size : String
deriving DecidableEq, Repr

/-- Append a row to a per-slug buffer, mirroring `buf[slug].append(row)` on a
`defaultdict(list)` (storage.py lines 198-199): the entry for the row's slug
keeps its position (a fresh slug is appended at the end) and the row goes to
the end of that entry's list. -/
def buf_append {α : Type} (slugOf : α → String)
    (buf : List (String × List α)) (row : α) : List (String × List α) :=
  match buf with
  | [] => [(slugOf row, [row])]
  | (k, rs) :: rest =>
      if k = slugOf row then (k, rs ++ [row]) :: rest
      else (k, rs) :: buf_append slugOf rest row

/-- Drain a queue's rows (in FIFO order) into a per-slug buffer, mirroring
the `while not q.empty(): ... buf[slug].append(row)` loop (storage.py lines
195-201). -/
def buf_drain {α : Type} (slugOf : α → String)
    (buf : List (String × List α)) (rows : List α) : List (String × List α) :=
  rows.foldl (buf_append slugOf) buf

/-- Total number of buffered rows of one kind, mirroring
`sum(len(v) for v in buf.values())` (storage.py line 204). -/
def buf_total {α : Type} (buf : List (String × List α)) : Nat :=
  (buf.map (fun e => e.2.length)).sum

/-- One immutable part file written by `_write_parquet_part` (storage.py
lines 146-151): kind and slug determine the directory, `now_ms` the
`part_` suffix, and `rows` the file's contents. -/
structure PartFile (α : Type) where
  slug : String
  now_ms : ℚ
  rows : List α
deriving DecidableEq, Repr

/-- One kind's portion of `_flush_buffers` (storage.py lines 161-181):
iterate the buffer entries in order, skip empty ones (`if not rows:
continue`), write each non-empty one as a new part file stamped `now_ms`,
and reset the entry to `[]`.  Returns the files written (in order) and the
emptied buffer. -/
def buf_flush {α : Type} (now_ms : ℚ) (buf : List (String × List α)) :
    List (PartFile α) × List (String × List α) :=
  match buf with
  | [] => ([], [])
  | (k, rs) :: rest =>
      let r := buf_flush now_ms rest
      match rs with
      | [] => (r.1, (k, []) :: r.2)
      | _ :: _ => (⟨k, now_ms, rs⟩ :: r.1, (k, []) :: r.2)

/-- Mirror of the `OrderbookStorage` flush configuration (storage.py lines
18-19 and 108-117): defaults `FLUSH_INTERVAL = 5.0`, `FLUSH_MAX_ROWS = 200`. -/
structure WriterConfig where
  flush_interval : ℚ := 5
  flush_max_rows : Nat := 200
deriving DecidableEq, Repr

/-- The local state of `_writer_loop` (storage.py lines 183-187) plus the
part files it has written so far (the durable effect trace). -/
structure WriterState where
  snap_buf : List (String × List SnapshotRow)
  tick_buf : List (String × List TickRow)
  trade_buf : List (String × List TradeRow)
  last_flush : ℚ
  snap_files : List (PartFile SnapshotRow)
  tick_files : List (PartFile TickRow)
  trade_files : List (PartFile TradeRow)
deriving DecidableEq, Repr

/-- The writer state right after `_writer_loop` starts: empty buffers, no
files, `last_flush` set to the loop time `t0` (storage.py lines 184-187). -/
def writer_init (t0 : ℚ) : WriterState :=
  ⟨[], [], [], t0, [], [], []⟩

/-- Mirror of `_flush_buffers` (storage.py lines 153-181): flush all three
kinds, appending the new part files to the effect trace. -/
def flush_buffers (now_ms : ℚ) (st : WriterState) : WriterState :=
  let fs := buf_flush now_ms st.snap_buf
  let ft := buf_flush now_ms st.tick_buf
  let fr := buf_flush now_ms st.trade_buf
  { st with
    snap_buf := fs.2
    tick_buf := ft.2
    trade_buf := fr.2
    snap_files := st.snap_files ++ fs.1
    tick_files := st.tick_files ++ ft.1
    trade_files := st.trade_files ++ fr.1 }

/-- The environment of one `_writer_loop` iteration: the rows found in the
three queues when draining them, and the event-loop clock reading
`now = asyncio.get_event_loop().time()` (storage.py line 203). -/
structure WriterTick where
  snap_in : List SnapshotRow
  tick_in : List TickRow
  trade_in : List TradeRow
  now : ℚ
deriving DecidableEq, Repr

/-- One iteration of the `while not self._stop.is_set()` body of
`_writer_loop` (storage.py lines 189-209): drain the three queues into the
buffers, then flush every buffer when the wall-clock interval has elapsed
since the previous flush or the total buffered row count reached the
threshold.  The returned Bool reports whether `_flush_buffers` was invoked. -/
def writer_step (cfg : WriterConfig) (st : WriterState) (tk : WriterTick) :
    WriterState × Bool :=
  let st1 :=
    { st with
      snap_buf := buf_drain SnapshotRow.slug st.snap_buf tk.snap_in
      tick_buf := buf_drain TickRow.slug st.tick_buf tk.tick_in
      trade_buf := buf_drain TradeRow.slug st.trade_buf tk.trade_in }
  let total := buf_total st1.snap_buf + buf_total st1.tick_buf + buf_total st1.trade_buf
  if cfg.flush_interval ≤ tk.now - st.last_flush ∨ cfg.flush_max_rows ≤ total then
    ({ flush_buffers tk.now st1 with last_flush := tk.now }, true)
  else (st1, false)

/-- A sequence of `_writer_loop` iterations in which the stop flag stayed
unset and the `await asyncio.sleep(0.1)` at the end of each iteration
completed normally. -/
def writer_run (cfg : WriterConfig) (st : WriterState) (ticks : List WriterTick) :
    WriterState :=
  ticks.foldl (fun s tk => (writer_step cfg s tk).1) st

/-- How the `_writer_loop` coroutine ends.  `via_stop_flag`: the `while not
self._stop.is_set()` check at storage.py line 189 observes the flag and the
loop falls through to the final `await self._flush_buffers(...)` on line
212.  `via_cancel_at_sleep`: a `CancelledError` is delivered at the `await
asyncio.sleep(0.1)` suspension point on line 209; `_writer_loop` has no
handler or `finally`, so the coroutine unwinds immediately and line 212 is
never reached. -/
inductive WriterExit
  | via_stop_flag (now : ℚ)
  | via_cancel_at_sleep
deriving DecidableEq, Repr

/-- The final writer state for each exit path of `_writer_loop`. -/
def writer_loop_exit : WriterExit → WriterState → WriterState
  | .via_stop_flag now, st => flush_buffers now st
  | .via_cancel_at_sleep, st => st

/-- How `stop_writer` (storage.py lines 221-229) actually ends the loop: it
sets `_stop` and then immediately calls `self._writer_task.cancel()` with no
intervening await, so the writer task — which is necessarily parked at the
`await asyncio.sleep(0.1)` on line 209, the loop body's only suspension
point — receives the `CancelledError` there before it can re-check the stop
flag.  `stop_writer` then awaits the task and swallows the
`CancelledError`. -/
def stop_writer_exit : WriterExit := .via_cancel_at_sleep

/-- Normalized feed events observable in a `run_ws` execution trace
(src/src/clob_ws.py).  `subscribe_sent` is the `ws.send(subscribe_msg)` on
line 163 naming the subscribed instrument set; `reader_error` is an
exception inside `reader` being caught and logged on lines 149-150;
`reader_closed` is the message iterator ending; `reader_stopped` is the
stop check on lines 119-120 returning from `reader`; `connect_error` is an
exception escaping to the `except Exception` branch on lines 176-183 (a
failure of `websockets.connect` or of the subscribe send); `sleep5` is the
`await asyncio.sleep(5)` on line 184. -/
inductive WsEvent
  | subscribe_sent (asset_ids : List String)
  | reader_error
  | reader_closed
  | reader_stopped
  | connect_error
  | sleep5
deriving DecidableEq, Repr

/-- Why the `reader` coroutine returned (clob_ws.py lines 116-150): an
exception while reading or dispatching was swallowed by the trailing
`except Exception` (`read_error`), the message iterator ended because the
connection closed (`closed`), or the stop event was observed (`stopped`). -/
inductive SessionEnd
  | read_error
  | closed
  | stopped
deriving DecidableEq, Repr

/-- The trace event with which each reader ending is recorded. -/
def session_end_event : SessionEnd → WsEvent
  | .read_error => .reader_error
  | .closed => .reader_closed
  | .stopped => .reader_stopped

/-- Outcome of one iteration of the `while True` connection loop of `run_ws`
(clob_ws.py lines 152-186).  `session e ping_failed`: the connection opened,
the subscribe message was sent, and the reader ran until `e`; `ping_failed`
records whether the keep-alive task died of a send failure — `ping_loop`
catches every exception itself (lines 111-114), so this has no effect on
the session.  `connect_fail`: connecting or sending the subscribe message
raised, taking the `except Exception` branch.  `cancelled`: an
`asyncio.CancelledError` reached the outer `except` (lines 174-175) and the
loop breaks. -/
inductive AttemptOutcome
  | session (e : SessionEnd) (ping_failed : Bool)
  | connect_fail
  | cancelled
deriving DecidableEq, Repr

/-- One iteration of the connection loop together with the values the two
stop-event checks observed: `stop_before` at line 153, `stop_after` at
line 185. -/
structure WsAttempt where
  stop_before : Bool
  outcome : AttemptOutcome
  stop_after : Bool
deriving DecidableEq, Repr

/-- The trace events one loop iteration contributes (clob_ws.py lines
155-184). -/
def attempt_events (asset_ids : List String) (a : WsAttempt) : List WsEvent :=
  match a.outcome with
  | .session e _ => [.subscribe_sent asset_ids, session_end_event e]
  | .connect_fail => [.connect_error, .sleep5]
  | .cancelled => []

/-- The `while True` connection loop of `run_ws` (clob_ws.py lines 152-186)
over a list of iteration outcomes.  Returns the event trace and whether the
loop terminated (broke out) while consuming the given attempts; `false`
means the loop is still retrying. -/
def run_ws_loop (asset_ids : List String) : List WsAttempt → List WsEvent × Bool
  | [] => ([], false)
  | a :: rest =>
      if a.stop_before = true then ([], true)
      else if a.outcome = .cancelled then ([], true)
      else
        let evs := attempt_events asset_ids a
        if a.stop_after = true then (evs, true)
        else
          let r := run_ws_loop asset_ids rest
          (evs ++ r.1, r.2)

/-- Mirror of `run_ws` (clob_ws.py lines 84-186): with an empty instrument
list it logs a warning and returns at once (lines 99-101) — no connection,
no subscribe, no handler can run; otherwise it enters the connection loop. -/
def run_ws (asset_ids : List String) (attempts : List WsAttempt) :
    List WsEvent × Bool :=
  if asset_ids = [] then ([], true)
  else run_ws_loop asset_ids attempts

/-- Mirror of the sleep computation in `Scheduler.run` (src/src/scheduler.py
lines 161-167): `delta = (end - now).total_seconds(); if delta <= 0: delta =
1`. -/
def sleep_seconds (end_date_ts now : ℚ) : ℚ :=
  let delta := end_date_ts - now
  if delta ≤ 0 then 1 else delta

/-- The sleep the specification describes for the ACTIVE state:
`sleepSeconds = max(1, endTimeUtc - now)`.  Stated from the spec's words,
for comparison with `sleep_seconds` above. -/
def sleep_seconds_spec (end_date_ts now : ℚ) : ℚ :=
  max 1 (end_date_ts - now)

/-- The externally visible actions of the Scheduler, in the vocabulary of
the specification.  `set_market_call` (a Detector reset) is part of the
vocabulary so that its absence from the scheduler's behaviour can be
stated; scheduler.py never performs it. -/
inductive SchedAction
  | save_market_meta (slug : String)
  | set_market_call (slug : String)
  | start_ws (asset_ids : List String)
  | sleep_for (secs : ℚ)
  | stop_ws
deriving DecidableEq, Repr

/-- The actions of one iteration of `Scheduler.run` once a market was
discovered (scheduler.py lines 157-171): `_switch_to` (which only records
`_current` and saves the metadata JSON, lines 115-131), start of the
WebSocket task for the market's asset ids, the sleep until `endDate`, then
`_stop_ws`. -/
def scheduler_iteration (m : MarketInfo) (now : ℚ) : List SchedAction :=
  [.save_market_meta m.slug, .start_ws m.asset_ids,
   .sleep_for (sleep_seconds m.end_date_ts now), .stop_ws]

/-- The parameter names accepted by `Scheduler.__init__` (scheduler.py lines
28-35): positional `storage` and `data_dir`, keyword-only `gamma_base` and
`ws_url`.  There is no detector parameter and the class stores no detector
reference. -/
def scheduler_init_params : List String :=
  ["storage", "data_dir", "gamma_base", "ws_url"]

/-- The argument names with which `run.py` `main` constructs the Scheduler
(run.py lines 49-55): the two positionals plus keyword arguments
`gamma_base`, `ws_url` and `realtime_arbitrage`. -/
def run_main_scheduler_args : List String :=
  ["storage", "data_dir", "gamma_base", "ws_url", "realtime_arbitrage"]

/-- Effects a feed-handler callback can perform, in the vocabulary of the
specification: the three Writer enqueue operations and a Detector
`update_book` call (present so its absence can be stated). -/
inductive HandlerEffect
  | enqueue_snapshot (slug : String) (ts_ms : Int) (asset_id market : String)
  | enqueue_tick (slug : String) (ts_ms : Int) (asset_id market : String)
  | enqueue_trade (slug : String) (ts_ms : Int) (asset_id market : String)
  | update_book_call (slug : String) (asset_id : String)
deriving DecidableEq, Repr

/-- A normalized book payload as delivered to `on_book`. -/
structure BookPayload where
  asset_id : String
  market : String
  timestamp : Int
  bids : List Level
  asks : List Level
deriving DecidableEq, Repr

/-- Mirror of the `on_book` handler built by `Scheduler._make_on_book`
(scheduler.py lines 49-63): it enqueues one snapshot tagged with the
current slug and does nothing else. -/
def on_book (current_slug : String) (payload : BookPayload) : List HandlerEffect :=
  [.enqueue_snapshot current_slug payload.timestamp payload.asset_id payload.market]

/-- The `WriterConfig` with both defaults in place (`FLUSH_INTERVAL = 5.0`,
`FLUSH_MAX_ROWS = 200`). -/
def writer_defaults : WriterConfig := {}

/-- One concrete snapshot row used in concrete writer scenarios. -/
def c2_row : SnapshotRow := ⟨"w1", 0, "U", "m", [], []⟩

/-- The writer state after one quiet loop iteration that drained exactly one
snapshot row at loop time 1 (interval not yet elapsed, row threshold not
reached, so no flush happened). -/
def c2_state : WriterState :=
  (writer_step writer_defaults (writer_init 0) ⟨[c2_row], [], [], 1⟩).1

/-- Formalization of claim C9 as stated, over an event trace: every
re-subscription that follows an error of the subscribed read loop has a
5-second sleep strictly between the two. -/
def Sleep5BetweenErrorAndResubscribe (tr : List WsEvent) : Prop :=
  ∀ i j ids, i < j → tr.get? i = some .reader_error →
    tr.get? j = some (.subscribe_sent ids) →
    ∃ k, i < k ∧ k < j ∧ tr.get? k = some .sleep5

/-- The two-attempt connection-loop history used to refute claim C9: a
session whose read loop errors out, followed by a session ended by the stop
event. -/
def c9_attempts : List WsAttempt :=
  [⟨false, .session .read_error false, false⟩,
   ⟨false, .session .stopped false, true⟩]

/-- A market whose first instrument id is the empty string — allowed by the
data model (gamma.py nowhere forbids empty token ids) — used to refute the
literal reading of claim C3. -/
def c3_market : MarketInfo := ⟨"w", "", 0, ["", "D"], ["Up", "Down"]⟩

/-- The detector right after activating `c3_market`. -/
def c3_state : RealtimeArbitrage := set_market { webhook_url := "hook" } c3_market

/-- The detector right after activating an ordinary Up/Down window `w`. -/
def c3w_state : RealtimeArbitrage :=
  set_market { webhook_url := "hook" } ⟨"w", "", 0, ["U", "D"], ["Up", "Down"]⟩

/-- The `BookSums` computed by an `update_book` call right after it stored
`best_bid_ask bids asks` for `asset_id` (composition of the embedded
`dictInsert`, `best_bid_ask` and `book_sums`). -/
def post_sums (st : RealtimeArbitrage) (asset_id : String)
    (bids asks : List Level) : BookSums :=
  book_sums (dictInsert st.book_state asset_id (best_bid_ask bids asks))
    st.asset_to_outcome

/-- The spec's scenario: best ask 0.40 for the Up instrument, then best ask
0.55 for the Down instrument, on an active window with a configured
webhook. -/
def c3_scenario_state : RealtimeArbitrage :=
  update_book
    (update_book c3w_state "w" 0 "U" [] [Level.arr [2/5]])
    "w" 0 "D" [] [Level.arr [11/20]]

/-- All rows of one kind's buffer, flattened in entry order. -/
def buf_rows {α : Type} (buf : List (String × List α)) : List α :=
  (buf.map Prod.snd).flatten

/-- All rows of a list of part files, flattened in file order. -/
def files_rows {α : Type} (files : List (PartFile α)) : List α :=
  (files.map PartFile.rows).flatten

/-- The flush trigger of `_writer_loop` (storage.py line 205), evaluated on
the post-drain buffers: the wall-clock interval has elapsed since the
previous flush, or the total buffered row count reached the threshold. -/
def writer_should_flush (cfg : WriterConfig) (st : WriterState) (tk : WriterTick) :
    Prop :=
  cfg.flush_interval ≤ tk.now - st.last_flush ∨
    cfg.flush_max_rows ≤
      buf_total (buf_drain SnapshotRow.slug st.snap_buf tk.snap_in) +
        buf_total (buf_drain TickRow.slug st.tick_buf tk.tick_in) +
        buf_total (buf_drain TradeRow.slug st.trade_buf tk.trade_in)

/-- A row used in the C5 witness scenario. -/
def c5_row : SnapshotRow := ⟨"w2", 7, "D", "m", [], []⟩

/-- No part file of any kind recorded in the state is empty. -/
def WriterFilesNonempty (st : WriterState) : Prop :=
  (∀ f ∈ st.snap_files, f.rows ≠ []) ∧ (∀ f ∈ st.tick_files, f.rows ≠ []) ∧
    (∀ f ∈ st.trade_files, f.rows ≠ [])

/-- A signal used in the C4 witness scenario. -/
def c4_sig : ArbitrageSignal := ⟨"w", 0, 95/100, 0, true, false⟩

/-- First C4 witness event: dispatched at monotonic time 1, marked at 2. -/
def c4_ev1 : SenderEvent := ⟨c4_sig, 1, true, 2⟩

/-- Second C4 witness event: dispatched at monotonic time 40, marked at 41. -/
def c4_ev2 : SenderEvent := ⟨c4_sig, 40, true, 41⟩

/-- Invariant tying a detector state to the window it was activated for and
the `update_book` calls handled since: the slug and map are those of
`set_market`, the book-state keys are duplicate-free, and every key is a
mapped instrument that some handled call observed with the window's slug. -/
def DetectorInv (m : MarketInfo) (hist : List UpdateCall)
    (st : RealtimeArbitrage) : Prop :=
  st.current_slug = some m.slug ∧
  st.asset_to_outcome = market_a2o m ∧
  (dictKeys st.book_state).Nodup ∧
  ∀ aid ∈ dictKeys st.book_state,
    (dictLookup (market_a2o m) aid).isSome = true ∧
    ∃ d ∈ hist, d.asset_id = aid ∧ d.slug = m.slug

/- Theorems. -/

/-- Helper: a left fold of `max` lands on its seed or on one of the folded
elements. -/
theorem foldl_max_mem {α : Type} [LinearOrder α] (ps : List α) (p : α) :
    ps.foldl max p ∈ p :: ps := by
  induction ps generalizing p with
  | nil => simp
  | cons a ps ih =>
      rw [List.foldl_cons]
      rcases List.mem_cons.mp (ih (max p a)) with h | h
      · rw [h]
        rcases max_choice p a with hm | hm <;> simp [hm]
      · simp [List.mem_cons_of_mem, h]

/-- Helper: the seed is below a left fold of `max`. -/
theorem self_le_foldl_max {α : Type} [LinearOrder α] (ps : List α) (p : α) :
    p ≤ ps.foldl max p := by
  induction ps generalizing p with
  | nil => simp
  | cons a ps ih =>
      rw [List.foldl_cons]
      exact (le_max_left p a).trans (ih (max p a))

/-- Helper: a left fold of `max` bounds the seed and every folded element. -/
theorem le_foldl_max {α : Type} [LinearOrder α] (ps : List α) (p q : α)
    (h : q ∈ p :: ps) : q ≤ ps.foldl max p := by
  induction ps generalizing p with
  | nil =>
      simp only [List.mem_singleton] at h
      simp [h]
  | cons a ps ih =>
      rw [List.foldl_cons]
      rcases List.mem_cons.mp h with h1 | h1
      · exact h1 ▸ (le_max_left p a).trans (self_le_foldl_max ps (max p a))
      · rcases List.mem_cons.mp h1 with h2 | h2
        · exact h2 ▸ (le_max_right p a).trans (self_le_foldl_max ps (max p a))
        · exact ih (max p a) (List.mem_cons_of_mem _ h2)

/-- Helper: a left fold of `min` lands on its seed or on one of the folded
elements. -/
theorem foldl_min_mem {α : Type} [LinearOrder α] (ps : List α) (p : α) :
    ps.foldl min p ∈ p :: ps := by
  induction ps generalizing p with
  | nil => simp
  | cons a ps ih =>
      rw [List.foldl_cons]
      rcases List.mem_cons.mp (ih (min p a)) with h | h
      · rw [h]
        rcases min_choice p a with hm | hm <;> simp [hm]
      · simp [List.mem_cons_of_mem, h]

/-- Helper: a left fold of `min` is below its seed. -/
theorem foldl_min_le_self {α : Type} [LinearOrder α] (ps : List α) (p : α) :
    ps.foldl min p ≤ p := by
  induction ps generalizing p with
  | nil => simp
  | cons a ps ih =>
      rw [List.foldl_cons]
      exact (ih (min p a)).trans (min_le_left p a)

/-- Helper: a left fold of `min` is below the seed and every folded
element. -/
theorem foldl_min_le {α : Type} [LinearOrder α] (ps : List α) (p q : α)
    (h : q ∈ p :: ps) : ps.foldl min p ≤ q := by
  induction ps generalizing p with
  | nil =>
      simp only [List.mem_singleton] at h
      simp [h]
  | cons a ps ih =>
      rw [List.foldl_cons]
      rcases List.mem_cons.mp h with h1 | h1
      · exact h1 ▸ (foldl_min_le_self ps (min p a)).trans (min_le_left p a)
      · rcases List.mem_cons.mp h1 with h2 | h2
        · exact h2 ▸ (foldl_min_le_self ps (min p a)).trans (min_le_right p a)
        · exact ih (min p a) (List.mem_cons_of_mem _ h2)

/-- Helper: looking up the key just written by `dictInsert` yields the new
value. -/
theorem dictLookup_insert_self {κ α : Type} [DecidableEq κ]
    (m : List (κ × α)) (k : κ) (v : α) :
    dictLookup (dictInsert m k v) k = some v := by
  induction m with
  | nil => simp [dictInsert, dictLookup]
  | cons e rest ih =>
      obtain ⟨k1, v1⟩ := e
      by_cases h : k1 = k
      · simp [dictInsert, dictLookup, h]
      · simp [dictInsert, dictLookup, h, ih]

/-- Helper: `dictInsert` leaves other keys' lookups unchanged. -/
theorem dictLookup_insert_ne {κ α : Type} [DecidableEq κ]
    (m : List (κ × α)) (k k2 : κ) (v : α) (hne : ¬ k2 = k) :
    dictLookup (dictInsert m k v) k2 = dictLookup m k2 := by
  have hne2 : ¬ k = k2 := fun h => hne h.symm
  induction m with
  | nil =>
      simp only [dictInsert, dictLookup]
      rw [if_neg hne2]
  | cons e rest ih =>
      obtain ⟨k1, v1⟩ := e
      by_cases h : k1 = k
      · subst h
        simp only [dictInsert, if_pos rfl, dictLookup]
        rw [if_neg hne2, if_neg hne2]
      · simp only [dictInsert, if_neg h, dictLookup]
        by_cases h2 : k1 = k2
        · rw [if_pos h2, if_pos h2]
        · rw [if_neg h2, if_neg h2, ih]

/-- Helper: the full behaviour of an `update_book` call that passes all
three guards (non-empty asset id, matching slug, mapped asset), merged into
a single conditional. -/
theorem update_book_pass (st : RealtimeArbitrage) (slug : String) (ts_ms : Int)
    (asset_id : String) (bids asks : List Level)
    (hid : ¬ asset_id = "") (hslug : some slug = st.current_slug)
    (hmap : (dictLookup st.asset_to_outcome asset_id).isSome = true) :
    update_book st slug ts_ms asset_id bids asks =
      (let bs := dictInsert st.book_state asset_id (best_bid_ask bids asks)
       let s := book_sums bs st.asset_to_outcome
       let sum_ask := s.ask_up + s.ask_down
       let sum_bid := s.bid_up + s.bid_down
       if bs.length ≠ 2 ∨
           ¬ (sum_ask < st.buy_threshold ∨ sum_bid > st.sell_threshold) ∨
           st.webhook_url = "" then
         { st with book_state := bs }
       else
         { st with
           book_state := bs
           signal_q := st.signal_q ++
             [⟨slug, ts_ms, sum_ask, sum_bid,
               decide (sum_ask < st.buy_threshold),
               decide (sum_bid > st.sell_threshold)⟩] }) := by
  have hg1 : ¬ (asset_id = "" ∨ ¬ some slug = st.current_slug) := by
    push_neg
    exact ⟨hid, hslug⟩
  obtain ⟨o, ho⟩ : ∃ o, dictLookup st.asset_to_outcome asset_id = some o := by
    rwa [Option.isSome_iff_exists] at hmap
  have hg2 : ¬ ((dictLookup st.asset_to_outcome asset_id).isNone = true) := by
    simp [ho]
  by_cases h2 : (dictInsert st.book_state asset_id (best_bid_ask bids asks)).length = 2 <;>
    by_cases h3 :
      (book_sums (dictInsert st.book_state asset_id (best_bid_ask bids asks))
            st.asset_to_outcome).ask_up +
            (book_sums (dictInsert st.book_state asset_id (best_bid_ask bids asks))
              st.asset_to_outcome).ask_down <
          st.buy_threshold ∨
        (book_sums (dictInsert st.book_state asset_id (best_bid_ask bids asks))
              st.asset_to_outcome).bid_up +
            (book_sums (dictInsert st.book_state asset_id (best_bid_ask bids asks))
              st.asset_to_outcome).bid_down >
          st.sell_threshold <;>
    by_cases h4 : st.webhook_url = "" <;>
    simp [update_book, if_neg hg1, if_neg hg2, ho, h2, h3, h4]

/-- C3 as stated is false at one degenerate but reachable input: a window
whose instrument list contains the empty string.  `update_book` checks `if
not asset_id` before anything else (realtime_arbitrage.py line 107), so a
call for the mapped instrument `""` of the active window stores nothing at
all, while the claim promises the best bid/ask gets stored. -/
theorem C3_counterexample :
    some "w" = c3_state.current_slug ∧
    dictLookup c3_state.asset_to_outcome "" = some "Up" ∧
    update_book c3_state "w" 0 "" [Level.arr [3/10]] [] = c3_state ∧
    dictLookup (update_book c3_state "w" 0 "" [Level.arr [3/10]] []).book_state ""
      = none ∧
    ¬ dictLookup (update_book c3_state "w" 0 "" [Level.arr [3/10]] []).book_state ""
        = some (best_bid_ask [Level.arr [3/10]] []) := by
  have h3 : update_book c3_state "w" 0 "" [Level.arr [3/10]] [] = c3_state := by
    rw [update_book, if_pos (Or.inl rfl)]
  have h4 : dictLookup
      (update_book c3_state "w" 0 "" [Level.arr [3/10]] []).book_state "" = none := by
    rw [h3]
    simp [c3_state, set_market, dictLookup]
  refine ⟨by decide, by decide, h3, h4, ?_⟩
  rw [h4]
  simp

/-- C3 amended (the guard `if not asset_id` additionally requires a
non-empty instrument id): for every `update_book` call with a non-empty
instrument id whose slug matches the active window and whose instrument is
mapped, the stored entry is exactly `best_bid_ask bids asks` — the maximum
bid-level price (0 on an empty bid list) and the minimum ask-level price (1
on an empty ask list); once the book state holds both instruments and a
webhook is configured, a signal is appended iff `sumAsk < buyThreshold`
(default 0.99) or `sumBid > sellThreshold` (default 1.01), its flags being
exactly those comparisons; and the spec's scenario — best asks 0.40 and
0.55 — yields `sumAsk = 0.95`, `buyOpportunity = true`,
`sellOpportunity = false`. -/
theorem C3_update_book_stores_and_flags (st : RealtimeArbitrage) (slug : String)
    (ts_ms : Int) (asset_id : String) (bids asks : List Level) (o : String)
    (hid : ¬ asset_id = "") (hslug : some slug = st.current_slug)
    (hmap : dictLookup st.asset_to_outcome asset_id = some o) :
    (dictLookup (update_book st slug ts_ms asset_id bids asks).book_state asset_id =
      some (best_bid_ask bids asks)) ∧
    (bids = [] → (best_bid_ask bids asks).1 = 0) ∧
    (bids ≠ [] → (best_bid_ask bids asks).1 ∈ bids.map price_from_level ∧
      ∀ p ∈ bids.map price_from_level, p ≤ (best_bid_ask bids asks).1) ∧
    (asks = [] → (best_bid_ask bids asks).2 = 1) ∧
    (asks ≠ [] → (best_bid_ask bids asks).2 ∈ asks.map price_from_level ∧
      ∀ p ∈ asks.map price_from_level, (best_bid_ask bids asks).2 ≤ p) ∧
    ((dictInsert st.book_state asset_id (best_bid_ask bids asks)).length = 2 →
      ¬ st.webhook_url = "" →
      (((post_sums st asset_id bids asks).ask_up +
            (post_sums st asset_id bids asks).ask_down < st.buy_threshold ∨
          (post_sums st asset_id bids asks).bid_up +
            (post_sums st asset_id bids asks).bid_down > st.sell_threshold →
        (update_book st slug ts_ms asset_id bids asks).signal_q =
          st.signal_q ++
            [⟨slug, ts_ms,
              (post_sums st asset_id bids asks).ask_up +
                (post_sums st asset_id bids asks).ask_down,
              (post_sums st asset_id bids asks).bid_up +
                (post_sums st asset_id bids asks).bid_down,
              decide ((post_sums st asset_id bids asks).ask_up +
                (post_sums st asset_id bids asks).ask_down < st.buy_threshold),
              decide ((post_sums st asset_id bids asks).bid_up +
                (post_sums st asset_id bids asks).bid_down > st.sell_threshold)⟩]) ∧
      (¬ ((post_sums st asset_id bids asks).ask_up +
            (post_sums st asset_id bids asks).ask_down < st.buy_threshold ∨
          (post_sums st asset_id bids asks).bid_up +
            (post_sums st asset_id bids asks).bid_down > st.sell_threshold) →
        (update_book st slug ts_ms asset_id bids asks).signal_q = st.signal_q))) ∧
    c3_scenario_state.signal_q = [⟨"w", 0, 19/20, 0, true, false⟩] := by
  have hpass := update_book_pass st slug ts_ms asset_id bids asks hid hslug
    (by simp [hmap])
  refine ⟨?_, ?_, ?_, ?_, ?_, ?_, ?_⟩
  · rw [hpass]
    simp only []
    split
    · exact dictLookup_insert_self ..
    · exact dictLookup_insert_self ..
  · intro h
    simp [best_bid_ask, h]
  · intro h
    obtain ⟨b, bs, rfl⟩ := List.exists_cons_of_ne_nil h
    have h1 : (best_bid_ask (b :: bs) asks).1 =
        (bs.map price_from_level).foldl max (price_from_level b) := by
      simp [best_bid_ask]
    rw [h1]
    constructor
    · simpa using foldl_max_mem (bs.map price_from_level) (price_from_level b)
    · intro p hp
      exact le_foldl_max _ _ _ (by simpa using hp)
  · intro h
    simp [best_bid_ask, h]
  · intro h
    obtain ⟨a, as1, rfl⟩ := List.exists_cons_of_ne_nil h
    have h1 : (best_bid_ask bids (a :: as1)).2 =
        (as1.map price_from_level).foldl min (price_from_level a) := by
      simp [best_bid_ask]
    rw [h1]
    constructor
    · simpa using foldl_min_mem (as1.map price_from_level) (price_from_level a)
    · intro p hp
      exact foldl_min_le _ _ _ (by simpa using hp)
  · intro hlen hurl
    constructor
    · intro hflag
      have hcond :
          ¬ ((dictInsert st.book_state asset_id (best_bid_ask bids asks)).length ≠ 2 ∨
            ¬ ((post_sums st asset_id bids asks).ask_up +
                  (post_sums st asset_id bids asks).ask_down < st.buy_threshold ∨
                (post_sums st asset_id bids asks).bid_up +
                  (post_sums st asset_id bids asks).bid_down > st.sell_threshold) ∨
            st.webhook_url = "") := by
        push_neg
        exact ⟨hlen, hflag, hurl⟩
      simp only [hpass, post_sums] at hcond ⊢
      rw [if_neg hcond]
    · intro hflag
      simp only [hpass, post_sums] at hflag ⊢
      rw [if_pos (Or.inr (Or.inl hflag))]
  · have hu : update_book c3w_state "w" 0 "U" [] [Level.arr [2/5]] =
        { c3w_state with book_state := [("U", 0, 2/5)] } := by
      norm_num [update_book, c3w_state, set_market, market_a2o, dictInsert,
        dictLookup, best_bid_ask, price_from_level]
      simp
    unfold c3_scenario_state
    rw [hu]
    norm_num [update_book, c3w_state, set_market, market_a2o, dictInsert,
      dictLookup, best_bid_ask, price_from_level, book_sums]
    simp
    norm_num

/-- Witness for C3: on a fresh Up/Down window, an update for instrument `U`
with one ask level at 0.40 stores exactly `best_bid_ask` of the call's
levels. -/
theorem C3_witness :
    dictLookup
      (update_book c3w_state "w" 0 "U" [] [Level.arr [2/5]]).book_state "U" =
      some (best_bid_ask [] [Level.arr [2/5]]) :=
  (C3_update_book_stores_and_flags c3w_state "w" 0 "U" [] [Level.arr [2/5]] "Up"
    (by decide) (by decide) (by decide)).1

/-- Helper: appending one row to a per-slug buffer adds exactly that row to
the buffer's rows. -/
theorem buf_rows_append_count {α : Type} [DecidableEq α] (slugOf : α → String)
    (buf : List (String × List α)) (row r : α) :
    (buf_rows (buf_append slugOf buf row)).count r =
      (buf_rows buf).count r + List.count r [row] := by
  induction buf with
  | nil => simp [buf_append, buf_rows]
  | cons e rest ih =>
      obtain ⟨k, rs⟩ := e
      by_cases h : k = slugOf row
      · simp only [buf_append, if_pos h, buf_rows, List.map_cons, List.flatten_cons,
          List.count_append] at ih ⊢
        omega
      · simp only [buf_append, if_neg h, buf_rows, List.map_cons, List.flatten_cons,
          List.count_append] at ih ⊢
        omega

/-- Helper: draining a queue adds exactly the drained rows to the buffer. -/
theorem buf_rows_drain_count {α : Type} [DecidableEq α] (slugOf : α → String)
    (rows : List α) (buf : List (String × List α)) (r : α) :
    (buf_rows (buf_drain slugOf buf rows)).count r =
      (buf_rows buf).count r + rows.count r := by
  induction rows generalizing buf with
  | nil => simp [buf_drain]
  | cons a rows ih =>
      have hstep : buf_drain slugOf buf (a :: rows) =
          buf_drain slugOf (buf_append slugOf buf a) rows := rfl
      rw [hstep, ih, buf_rows_append_count]
      simp [List.count_cons]
      omega

/-- Helper: a flush writes exactly the buffered rows into the new part
files, in buffer order (empty entries contribute nothing either way). -/
theorem buf_flush_files_rows {α : Type} (now_ms : ℚ)
    (buf : List (String × List α)) :
    files_rows (buf_flush now_ms buf).1 = buf_rows buf := by
  induction buf with
  | nil => simp [buf_flush, files_rows, buf_rows]
  | cons e rest ih =>
      obtain ⟨k, rs⟩ := e
      cases rs with
      | nil => simpa [buf_flush, files_rows, buf_rows] using ih
      | cons a as =>
          simp only [buf_flush, files_rows, buf_rows, List.map_cons,
            List.flatten_cons] at ih ⊢
          rw [ih]

/-- Helper: after a flush every buffer entry is empty. -/
theorem buf_flush_empties {α : Type} (now_ms : ℚ) (buf : List (String × List α)) :
    ∀ e ∈ (buf_flush now_ms buf).2, e.2 = ([] : List α) := by
  induction buf with
  | nil => simp [buf_flush]
  | cons e rest ih =>
      obtain ⟨k, rs⟩ := e
      cases rs with
      | nil =>
          intro e he
          rw [buf_flush] at he
          rcases List.mem_cons.mp he with h | h
          · rw [h]
          · exact ih e h
      | cons a as =>
          intro e he
          rw [buf_flush] at he
          rcases List.mem_cons.mp he with h | h
          · rw [h]
          · exact ih e h

/-- Helper: the rows of a flushed buffer are all gone. -/
theorem buf_rows_flush_snd {α : Type} (now_ms : ℚ)
    (buf : List (String × List α)) :
    buf_rows (buf_flush now_ms buf).2 = ([] : List α) := by
  induction buf with
  | nil => simp [buf_flush, buf_rows]
  | cons e rest ih =>
      obtain ⟨k, rs⟩ := e
      cases rs with
      | nil => simpa [buf_flush, buf_rows] using ih
      | cons a as => simpa [buf_flush, buf_rows] using ih

/-- Helper: a flush never writes an empty part file. -/
theorem buf_flush_files_nonempty {α : Type} (now_ms : ℚ)
    (buf : List (String × List α)) :
    ∀ f ∈ (buf_flush now_ms buf).1, f.rows ≠ [] := by
  induction buf with
  | nil => simp [buf_flush]
  | cons e rest ih =>
      obtain ⟨k, rs⟩ := e
      cases rs with
      | nil =>
          intro f hf
          rw [buf_flush] at hf
          exact ih f hf
      | cons a as =>
          intro f hf
          rw [buf_flush] at hf
          rcases List.mem_cons.mp hf with h | h
          · rw [h]
            simp
          · exact ih f h

/-- Helper: the flush decision of one writer iteration is exactly the
drain-then-check trigger of storage.py line 205. -/
theorem writer_step_flush_iff (cfg : WriterConfig) (st : WriterState)
    (tk : WriterTick) :
    (writer_step cfg st tk).2 = true ↔ writer_should_flush cfg st tk := by
  simp only [writer_step, writer_should_flush]
  split
  case isTrue hc => simpa using hc
  case isFalse hc => simpa using hc

/-- Helper: when the trigger fires, the iteration flushes and empties every
buffer entry of all three kinds. -/
theorem writer_step_flush_empties (cfg : WriterConfig) (st : WriterState)
    (tk : WriterTick) (h : (writer_step cfg st tk).2 = true) :
    (∀ e ∈ (writer_step cfg st tk).1.snap_buf, e.2 = []) ∧
    (∀ e ∈ (writer_step cfg st tk).1.tick_buf, e.2 = []) ∧
    (∀ e ∈ (writer_step cfg st tk).1.trade_buf, e.2 = []) := by
  rw [writer_step] at h ⊢
  split at h
  case isTrue hc =>
      simp only [if_pos hc, flush_buffers]
      exact ⟨buf_flush_empties _ _, buf_flush_empties _ _, buf_flush_empties _ _⟩
  case isFalse hc => simp at h

/-- Helper: one iteration preserves non-emptiness of all recorded files. -/
theorem writer_step_files_nonempty (cfg : WriterConfig) (st : WriterState)
    (tk : WriterTick) (h : WriterFilesNonempty st) :
    WriterFilesNonempty (writer_step cfg st tk).1 := by
  obtain ⟨h1, h2, h3⟩ := h
  rw [writer_step]
  split
  · refine ⟨?_, ?_, ?_⟩ <;> intro f hf <;>
      simp only [flush_buffers, List.mem_append] at hf
    · rcases hf with hf | hf
      · exact h1 f hf
      · exact buf_flush_files_nonempty _ _ f hf
    · rcases hf with hf | hf
      · exact h2 f hf
      · exact buf_flush_files_nonempty _ _ f hf
    · rcases hf with hf | hf
      · exact h3 f hf
      · exact buf_flush_files_nonempty _ _ f hf
  · exact ⟨h1, h2, h3⟩

/-- Helper: a whole run preserves non-emptiness of recorded files. -/
theorem writer_run_files_nonempty (cfg : WriterConfig) (ticks : List WriterTick)
    (st : WriterState) (h : WriterFilesNonempty st) :
    WriterFilesNonempty (writer_run cfg st ticks) := by
  induction ticks generalizing st with
  | nil => exact h
  | cons tk ticks ih => exact ih _ (writer_step_files_nonempty cfg st tk h)

/-- Helper: snapshot-row conservation across one iteration: rows in files
plus rows still buffered grow exactly by the drained input. -/
theorem writer_step_snap_count (cfg : WriterConfig) (st : WriterState)
    (tk : WriterTick) (r : SnapshotRow) :
    (files_rows (writer_step cfg st tk).1.snap_files).count r +
      (buf_rows (writer_step cfg st tk).1.snap_buf).count r =
      (files_rows st.snap_files).count r + (buf_rows st.snap_buf).count r +
        tk.snap_in.count r := by
  rw [writer_step]
  split
  · simp only [flush_buffers, files_rows, List.map_append, List.flatten_append,
      List.count_append]
    have he := buf_rows_flush_snd tk.now (buf_drain SnapshotRow.slug st.snap_buf tk.snap_in)
    have hf := buf_flush_files_rows tk.now (buf_drain SnapshotRow.slug st.snap_buf tk.snap_in)
    have hd := buf_rows_drain_count SnapshotRow.slug tk.snap_in st.snap_buf r
    rw [he]
    have hff : (files_rows (buf_flush tk.now
        (buf_drain SnapshotRow.slug st.snap_buf tk.snap_in)).1).count r =
        (buf_rows (buf_drain SnapshotRow.slug st.snap_buf tk.snap_in)).count r := by
      rw [hf]
    simp only [files_rows] at hff
    rw [hff, hd]
    simp
    omega
  · simp only []
    rw [buf_rows_drain_count]
    omega

/-- Helper: tick-row conservation across one iteration. -/
theorem writer_step_tick_count (cfg : WriterConfig) (st : WriterState)
    (tk : WriterTick) (r : TickRow) :
    (files_rows (writer_step cfg st tk).1.tick_files).count r +
      (buf_rows (writer_step cfg st tk).1.tick_buf).count r =
      (files_rows st.tick_files).count r + (buf_rows st.tick_buf).count r +
        tk.tick_in.count r := by
  rw [writer_step]
  split
  · simp only [flush_buffers, files_rows, List.map_append, List.flatten_append,
      List.count_append]
    have he := buf_rows_flush_snd tk.now (buf_drain TickRow.slug st.tick_buf tk.tick_in)
    have hf := buf_flush_files_rows tk.now (buf_drain TickRow.slug st.tick_buf tk.tick_in)
    have hd := buf_rows_drain_count TickRow.slug tk.tick_in st.tick_buf r
    rw [he]
    have hff : (files_rows (buf_flush tk.now
        (buf_drain TickRow.slug st.tick_buf tk.tick_in)).1).count r =
        (buf_rows (buf_drain TickRow.slug st.tick_buf tk.tick_in)).count r := by
      rw [hf]
    simp only [files_rows] at hff
    rw [hff, hd]
    simp
    omega
  · simp only []
    rw [buf_rows_drain_count]
    omega

/-- Helper: trade-row conservation across one iteration. -/
theorem writer_step_trade_count (cfg : WriterConfig) (st : WriterState)
    (tk : WriterTick) (r : TradeRow) :
    (files_rows (writer_step cfg st tk).1.trade_files).count r +
      (buf_rows (writer_step cfg st tk).1.trade_buf).count r =
      (files_rows st.trade_files).count r + (buf_rows st.trade_buf).count r +
        tk.trade_in.count r := by
  rw [writer_step]
  split
  · simp only [flush_buffers, files_rows, List.map_append, List.flatten_append,
      List.count_append]
    have he := buf_rows_flush_snd tk.now (buf_drain TradeRow.slug st.trade_buf tk.trade_in)
    have hf := buf_flush_files_rows tk.now (buf_drain TradeRow.slug st.trade_buf tk.trade_in)
    have hd := buf_rows_drain_count TradeRow.slug tk.trade_in st.trade_buf r
    rw [he]
    have hff : (files_rows (buf_flush tk.now
        (buf_drain TradeRow.slug st.trade_buf tk.trade_in)).1).count r =
        (buf_rows (buf_drain TradeRow.slug st.trade_buf tk.trade_in)).count r := by
      rw [hf]
    simp only [files_rows] at hff
    rw [hff, hd]
    simp
    omega
  · simp only []
    rw [buf_rows_drain_count]
    omega

/-- Helper: snapshot-row conservation across a whole run. -/
theorem writer_run_snap_count (cfg : WriterConfig) (ticks : List WriterTick)
    (st : WriterState) (r : SnapshotRow) :
    (files_rows (writer_run cfg st ticks).snap_files).count r +
      (buf_rows (writer_run cfg st ticks).snap_buf).count r =
      (files_rows st.snap_files).count r + (buf_rows st.snap_buf).count r +
        ((ticks.map WriterTick.snap_in).flatten).count r := by
  induction ticks generalizing st with
  | nil => simp [writer_run]
  | cons tk ticks ih =>
      have hrun : writer_run cfg st (tk :: ticks) =
          writer_run cfg (writer_step cfg st tk).1 ticks := rfl
      rw [hrun, ih, writer_step_snap_count]
      simp [List.count_append]
      omega

/-- Helper: tick-row conservation across a whole run. -/
theorem writer_run_tick_count (cfg : WriterConfig) (ticks : List WriterTick)
    (st : WriterState) (r : TickRow) :
    (files_rows (writer_run cfg st ticks).tick_files).count r +
      (buf_rows (writer_run cfg st ticks).tick_buf).count r =
      (files_rows st.tick_files).count r + (buf_rows st.tick_buf).count r +
        ((ticks.map WriterTick.tick_in).flatten).count r := by
  induction ticks generalizing st with
  | nil => simp [writer_run]
  | cons tk ticks ih =>
      have hrun : writer_run cfg st (tk :: ticks) =
          writer_run cfg (writer_step cfg st tk).1 ticks := rfl
      rw [hrun, ih, writer_step_tick_count]
      simp [List.count_append]
      omega

/-- Helper: trade-row conservation across a whole run. -/
theorem writer_run_trade_count (cfg : WriterConfig) (ticks : List WriterTick)
    (st : WriterState) (r : TradeRow) :
    (files_rows (writer_run cfg st ticks).trade_files).count r +
      (buf_rows (writer_run cfg st ticks).trade_buf).count r =
      (files_rows st.trade_files).count r + (buf_rows st.trade_buf).count r +
        ((ticks.map WriterTick.trade_in).flatten).count r := by
  induction ticks generalizing st with
  | nil => simp [writer_run]
  | cons tk ticks ih =>
      have hrun : writer_run cfg st (tk :: ticks) =
          writer_run cfg (writer_step cfg st tk).1 ticks := rfl
      rw [hrun, ih, writer_step_trade_count]
      simp [List.count_append]
      omega

/-- C5: one writer-loop iteration invokes `_flush_buffers` exactly when the
wall-clock interval (default 5 s) has elapsed since the previous flush or
the total buffered row count over all buffers reached the threshold
(default 200); a flush leaves every buffer entry of all three kinds empty;
over any run from loop start no recorded part file is empty; and rows are
conserved — for each kind, the occurrences of a row in all flushed files
plus those still buffered equal its occurrences in the drained input, so a
row never ends up in two flushed files. -/
theorem C5_writer_flush_properties (cfg : WriterConfig) (st : WriterState)
    (tk : WriterTick) (t0 : ℚ) (ticks : List WriterTick) (r1 : SnapshotRow)
    (r2 : TickRow) (r3 : TradeRow) :
    ((writer_step cfg st tk).2 = true ↔ writer_should_flush cfg st tk) ∧
    ((writer_step cfg st tk).2 = true →
      (∀ e ∈ (writer_step cfg st tk).1.snap_buf, e.2 = []) ∧
      (∀ e ∈ (writer_step cfg st tk).1.tick_buf, e.2 = []) ∧
      (∀ e ∈ (writer_step cfg st tk).1.trade_buf, e.2 = [])) ∧
    WriterFilesNonempty (writer_run cfg (writer_init t0) ticks) ∧
    ((files_rows (writer_run cfg (writer_init t0) ticks).snap_files).count r1 +
        (buf_rows (writer_run cfg (writer_init t0) ticks).snap_buf).count r1 =
      ((ticks.map WriterTick.snap_in).flatten).count r1) ∧
    ((files_rows (writer_run cfg (writer_init t0) ticks).tick_files).count r2 +
        (buf_rows (writer_run cfg (writer_init t0) ticks).tick_buf).count r2 =
      ((ticks.map WriterTick.tick_in).flatten).count r2) ∧
    ((files_rows (writer_run cfg (writer_init t0) ticks).trade_files).count r3 +
        (buf_rows (writer_run cfg (writer_init t0) ticks).trade_buf).count r3 =
      ((ticks.map WriterTick.trade_in).flatten).count r3) := by
  refine ⟨writer_step_flush_iff cfg st tk, writer_step_flush_empties cfg st tk,
    writer_run_files_nonempty cfg ticks (writer_init t0)
      ⟨by simp [writer_init], by simp [writer_init], by simp [writer_init]⟩,
    ?_, ?_, ?_⟩
  · have h := writer_run_snap_count cfg ticks (writer_init t0) r1
    simpa [writer_init, files_rows, buf_rows] using h
  · have h := writer_run_tick_count cfg ticks (writer_init t0) r2
    simpa [writer_init, files_rows, buf_rows] using h
  · have h := writer_run_trade_count cfg ticks (writer_init t0) r3
    simpa [writer_init, files_rows, buf_rows] using h

/-- Witness for C5: with the default configuration, an iteration at loop
time 6 (interval 5 elapsed since the flush clock started at 0) that drained
one snapshot row reports a flush, and afterwards every snapshot-buffer
entry is empty. -/
theorem C5_witness :
    (writer_step writer_defaults (writer_init 0) ⟨[c5_row], [], [], 6⟩).2 = true ∧
    ∀ e ∈ (writer_step writer_defaults (writer_init 0) ⟨[c5_row], [], [], 6⟩).1.snap_buf,
      e.2 = [] := by
  have h2 : (writer_step writer_defaults (writer_init 0) ⟨[c5_row], [], [], 6⟩).2 = true := by
    norm_num [writer_step, writer_defaults, writer_init, buf_drain, buf_append,
      buf_total]
  exact ⟨h2,
    ((C5_writer_flush_properties writer_defaults (writer_init 0)
      ⟨[c5_row], [], [], 6⟩ 0 [] c5_row ⟨"", 0, "", "", "", "", "", "", ""⟩
      ⟨"", 0, "", "", "", "", ""⟩).2.1 h2).1⟩

/-- Helper: if `_should_send` lets a signal through, every direction the
signal carries was last sent at least `min_interval_sec` ago. -/
theorem should_send_gate (min_interval_sec : ℚ) (ls : LastSent)
    (sig : ArbitrageSignal) (now : ℚ) (k : String × String)
    (hs : should_send min_interval_sec ls sig.slug sig.buy_opportunity
      sig.sell_opportunity now = true)
    (hd : has_direction sig k = true) :
    dictGetD ls k 0 + min_interval_sec ≤ now := by
  obtain ⟨k1, k2⟩ := k
  simp only [has_direction, Bool.and_eq_true, Bool.or_eq_true,
    decide_eq_true_eq] at hd
  obtain ⟨h1, h2⟩ := hd
  subst h1
  rw [should_send] at hs
  by_cases hc1 : sig.buy_opportunity = true ∧
      now - dictGetD ls (sig.slug, "buy") 0 < min_interval_sec
  · rw [if_pos hc1] at hs
    exact absurd hs (by simp)
  · rw [if_neg hc1] at hs
    by_cases hc2 : sig.sell_opportunity = true ∧
        now - dictGetD ls (sig.slug, "sell") 0 < min_interval_sec
    · rw [if_pos hc2] at hs
      exact absurd hs (by simp)
    · rcases h2 with ⟨hk, hb⟩ | ⟨hk, hs2⟩
      · subst hk
        by_contra hlt
        push_neg at hlt
        exact hc1 ⟨hb, by linarith⟩
      · subst hk
        by_contra hlt
        push_neg at hlt
        exact hc2 ⟨hs2, by linarith⟩

/-- Helper: `_mark_sent` stamps `now` on every key whose direction the
signal carries. -/
theorem mark_sent_lookup_dir (ls : LastSent) (sig : ArbitrageSignal) (now : ℚ)
    (k : String × String) (hd : has_direction sig k = true) :
    dictLookup
      (mark_sent ls sig.slug sig.buy_opportunity sig.sell_opportunity now) k =
      some now := by
  obtain ⟨k1, k2⟩ := k
  simp only [has_direction, Bool.and_eq_true, Bool.or_eq_true,
    decide_eq_true_eq] at hd
  obtain ⟨h1, h2⟩ := hd
  subst h1
  rcases h2 with ⟨hk, hb⟩ | ⟨hk, hs2⟩
  · subst hk
    by_cases hsell : sig.sell_opportunity = true
    · simp only [mark_sent, hb, hsell, if_true]
      rw [dictLookup_insert_ne]
      · exact dictLookup_insert_self _ _ _
      · simp
    · have hsell2 : sig.sell_opportunity = false := by
        revert hsell
        cases sig.sell_opportunity <;> simp
      simp only [mark_sent, hb, hsell2, if_true, Bool.false_eq_true, if_false]
      exact dictLookup_insert_self _ _ _
  · subst hk
    simp only [mark_sent, hs2, if_true]
    exact dictLookup_insert_self _ _ _

/-- Helper: `_mark_sent` leaves keys of directions the signal does not
carry untouched. -/
theorem mark_sent_lookup_other (ls : LastSent) (sig : ArbitrageSignal) (now : ℚ)
    (k : String × String) (hd : ¬ has_direction sig k = true) :
    dictLookup
      (mark_sent ls sig.slug sig.buy_opportunity sig.sell_opportunity now) k =
      dictLookup ls k := by
  obtain ⟨k1, k2⟩ := k
  simp only [has_direction, Bool.and_eq_true, Bool.or_eq_true,
    decide_eq_true_eq] at hd
  have hnbuy : sig.buy_opportunity = true →
      ¬ ((k1, k2) : String × String) = (sig.slug, "buy") := by
    intro hb heq
    rw [Prod.mk.injEq] at heq
    exact hd ⟨heq.1.symm, Or.inl ⟨heq.2, hb⟩⟩
  have hnsell : sig.sell_opportunity = true →
      ¬ ((k1, k2) : String × String) = (sig.slug, "sell") := by
    intro hs2 heq
    rw [Prod.mk.injEq] at heq
    exact hd ⟨heq.1.symm, Or.inr ⟨heq.2, hs2⟩⟩
  cases hbv : sig.buy_opportunity <;> cases hsv : sig.sell_opportunity
  · simp only [mark_sent, hbv, hsv, Bool.false_eq_true, if_false]
  · simp only [mark_sent, hbv, hsv, Bool.false_eq_true, if_false, if_true]
    exact dictLookup_insert_ne _ _ _ _ (hnsell hsv)
  · simp only [mark_sent, hbv, hsv, Bool.false_eq_true, if_false, if_true]
    exact dictLookup_insert_ne _ _ _ _ (hnbuy hbv)
  · simp only [mark_sent, hbv, hsv, if_true]
    rw [dictLookup_insert_ne _ _ _ _ (hnsell hsv)]
    exact dictLookup_insert_ne _ _ _ _ (hnbuy hbv)

/-- Helper: the sender loop handles each dequeued signal exactly once, in
order; nothing is re-queued. -/
theorem sender_run_map_fst (min_interval_sec : ℚ) (ls : LastSent)
    (evs : List SenderEvent) :
    (sender_run min_interval_sec ls evs).map Prod.fst = evs := by
  induction evs generalizing ls with
  | nil => simp [sender_run]
  | cons ev evs ih => simp [sender_run, ih]

/-- Helper: dispatched alerts are among the handled events. -/
theorem dispatched_for_subset (k : String × String)
    (tr : List (SenderEvent × SenderOutcome)) :
    ∀ e ∈ dispatched_for k tr, e ∈ tr.map Prod.fst := by
  intro e he
  simp only [dispatched_for, List.mem_map] at he
  obtain ⟨p, hp, rfl⟩ := he
  exact List.mem_map_of_mem _ (List.mem_of_mem_filter hp)

/-- Helper: over any sender run with a monotonic clock, the stored
last-sent stamp bounds every dispatch of its key by the minimum interval,
and consecutive dispatches of a key are separated by the interval (from
the preceding mark to the next gate check). -/
theorem sender_run_separation (min_interval_sec : ℚ) (k : String × String)
    (evs : List SenderEvent) :
    ∀ ls : LastSent,
      (∀ e ∈ evs, e.t_check ≤ e.t_mark) →
      evs.Pairwise (fun a b => a.t_mark ≤ b.t_check) →
      (∀ v, dictLookup ls k = some v → ∀ e ∈ evs, v ≤ e.t_mark) →
      ((∀ v, dictLookup ls k = some v →
          ∀ e ∈ dispatched_for k (sender_run min_interval_sec ls evs),
            v + min_interval_sec ≤ e.t_check) ∧
        (dispatched_for k (sender_run min_interval_sec ls evs)).Pairwise
          (fun a b => a.t_mark + min_interval_sec ≤ b.t_check)) := by
  induction evs with
  | nil =>
      intro ls _ _ _
      simp [sender_run, dispatched_for]
  | cons ev evs ih =>
      intro ls hcm hpw hst
      obtain ⟨hpw_head, hpw_tail⟩ := List.pairwise_cons.mp hpw
      have hcm_tail : ∀ e ∈ evs, e.t_check ≤ e.t_mark := fun e he =>
        hcm e (List.mem_cons_of_mem ev he)
      have hrun : sender_run min_interval_sec ls (ev :: evs) =
          (ev, (sender_step min_interval_sec ls ev).2) ::
            sender_run min_interval_sec (sender_step min_interval_sec ls ev).1 evs :=
        rfl
      by_cases hss : should_send min_interval_sec ls ev.sig.slug
          ev.sig.buy_opportunity ev.sig.sell_opportunity ev.t_check = false
      · have hstep : sender_step min_interval_sec ls ev = (ls, .gated) := by
          rw [sender_step, if_pos hss]
        rw [hrun, hstep]
        have hdd : dispatched_for k ((ev, SenderOutcome.gated) ::
            sender_run min_interval_sec ls evs) =
            dispatched_for k (sender_run min_interval_sec ls evs) := by
          simp [dispatched_for, List.filter_cons]
        rw [hdd]
        exact ih ls hcm_tail hpw_tail
          (fun v hv e he => hst v hv e (List.mem_cons_of_mem ev he))
      · have hss2 : should_send min_interval_sec ls ev.sig.slug
            ev.sig.buy_opportunity ev.sig.sell_opportunity ev.t_check = true := by
          revert hss
          cases should_send min_interval_sec ls ev.sig.slug ev.sig.buy_opportunity
            ev.sig.sell_opportunity ev.t_check <;> simp
        by_cases hpo : ev.post_ok = true
        · have hstep : sender_step min_interval_sec ls ev =
              (mark_sent ls ev.sig.slug ev.sig.buy_opportunity
                ev.sig.sell_opportunity ev.t_mark, .sent) := by
            rw [sender_step, if_neg hss, if_pos hpo]
          rw [hrun, hstep]
          by_cases hdir : has_direction ev.sig k = true
          · have hls2 : dictLookup (mark_sent ls ev.sig.slug ev.sig.buy_opportunity
                ev.sig.sell_opportunity ev.t_mark) k = some ev.t_mark :=
              mark_sent_lookup_dir ls ev.sig ev.t_mark k hdir
            have hst2 : ∀ v, dictLookup (mark_sent ls ev.sig.slug
                ev.sig.buy_opportunity ev.sig.sell_opportunity ev.t_mark) k =
                some v → ∀ e ∈ evs, v ≤ e.t_mark := by
              intro v hv e he
              rw [hls2] at hv
              injection hv with hv2
              subst hv2
              exact (hpw_head e he).trans (hcm_tail e he)
            have IH := ih (mark_sent ls ev.sig.slug ev.sig.buy_opportunity
              ev.sig.sell_opportunity ev.t_mark) hcm_tail hpw_tail hst2
            have hdd : dispatched_for k ((ev, SenderOutcome.sent) ::
                sender_run min_interval_sec (mark_sent ls ev.sig.slug
                  ev.sig.buy_opportunity ev.sig.sell_opportunity ev.t_mark) evs) =
                ev :: dispatched_for k (sender_run min_interval_sec
                  (mark_sent ls ev.sig.slug ev.sig.buy_opportunity
                    ev.sig.sell_opportunity ev.t_mark) evs) := by
              simp [dispatched_for, List.filter_cons, hdir]
            rw [hdd]
            constructor
            · intro v hv e he
              rcases List.mem_cons.mp he with he1 | he2
              · rw [he1]
                have hg := should_send_gate min_interval_sec ls ev.sig ev.t_check
                  k hss2 hdir
                have hgd : dictGetD ls k 0 = v := by
                  rw [dictGetD, hv]
                  rfl
                rw [← hgd]
                exact hg
              · have h1 := IH.1 ev.t_mark hls2 e he2
                have h2 := hst v hv ev (List.mem_cons_self ..)
                linarith
            · rw [List.pairwise_cons]
              exact ⟨fun b hb => IH.1 ev.t_mark hls2 b hb, IH.2⟩
          · have hls2 : dictLookup (mark_sent ls ev.sig.slug ev.sig.buy_opportunity
                ev.sig.sell_opportunity ev.t_mark) k = dictLookup ls k :=
              mark_sent_lookup_other ls ev.sig ev.t_mark k hdir
            have hst2 : ∀ v, dictLookup (mark_sent ls ev.sig.slug
                ev.sig.buy_opportunity ev.sig.sell_opportunity ev.t_mark) k =
                some v → ∀ e ∈ evs, v ≤ e.t_mark := by
              intro v hv e he
              rw [hls2] at hv
              exact hst v hv e (List.mem_cons_of_mem ev he)
            have IH := ih (mark_sent ls ev.sig.slug ev.sig.buy_opportunity
              ev.sig.sell_opportunity ev.t_mark) hcm_tail hpw_tail hst2
            have hdd : dispatched_for k ((ev, SenderOutcome.sent) ::
                sender_run min_interval_sec (mark_sent ls ev.sig.slug
                  ev.sig.buy_opportunity ev.sig.sell_opportunity ev.t_mark) evs) =
                dispatched_for k (sender_run min_interval_sec
                  (mark_sent ls ev.sig.slug ev.sig.buy_opportunity
                    ev.sig.sell_opportunity ev.t_mark) evs) := by
              simp [dispatched_for, List.filter_cons, hdir]
            rw [hdd]
            constructor
            · intro v hv e he
              exact IH.1 v (by rw [hls2]; exact hv) e he
            · exact IH.2
        · have hstep : sender_step min_interval_sec ls ev = (ls, .post_failed) := by
            rw [sender_step, if_neg hss, if_neg hpo]
          rw [hrun, hstep]
          have hdd : dispatched_for k ((ev, SenderOutcome.post_failed) ::
              sender_run min_interval_sec ls evs) =
              dispatched_for k (sender_run min_interval_sec ls evs) := by
            simp [dispatched_for, List.filter_cons]
          rw [hdd]
          exact ih ls hcm_tail hpw_tail
            (fun v hv e he => hst v hv e (List.mem_cons_of_mem ev he))

/-- C4: with a monotonic clock, any two alerts actually dispatched
(successfully posted) for the same `(slug, direction)` key are separated by
at least `min_interval_sec` between their gate checks; a signal arriving
while its direction is inside the minimum interval is consumed with outcome
`gated`, leaving the rate-limit table untouched — and since the loop
handles every dequeued signal exactly once and never re-queues, such a
signal is dropped permanently. -/
theorem C4_rate_limit_and_drop (min_interval_sec : ℚ) (evs : List SenderEvent)
    (k : String × String) (ht : TimesOk evs) :
    (dispatched_for k (sender_run min_interval_sec [] evs)).Pairwise
      (fun a b => a.t_check + min_interval_sec ≤ b.t_check) ∧
    (∀ (ls : LastSent) (ev : SenderEvent),
      should_send min_interval_sec ls ev.sig.slug ev.sig.buy_opportunity
          ev.sig.sell_opportunity ev.t_check = false →
      sender_step min_interval_sec ls ev = (ls, .gated)) ∧
    (sender_run min_interval_sec [] evs).map Prod.fst = evs := by
  obtain ⟨hcm, hpw⟩ := ht
  have main := sender_run_separation min_interval_sec k evs [] hcm hpw
    (by intro v hv; simp [dictLookup] at hv)
  refine ⟨?_, ?_, sender_run_map_fst min_interval_sec [] evs⟩
  · have hsub := dispatched_for_subset k (sender_run min_interval_sec [] evs)
    have hfst := sender_run_map_fst min_interval_sec [] evs
    refine List.Pairwise.imp_of_mem ?_ main.2
    intro a b ha hb hab
    have haev : a ∈ evs := by
      rw [← hfst]
      exact hsub a ha
    have hca := hcm a haev
    linarith
  · intro ls ev h
    rw [sender_step, if_pos h]

/-- Witness for C4: two successfully posted buy alerts for window `w` at
gate times 1 and 40, marked at 2 and 41, satisfy the 30-second pairwise
separation. -/
theorem C4_witness :
    TimesOk [c4_ev1, c4_ev2] ∧
    (dispatched_for ("w", "buy") (sender_run 30 [] [c4_ev1, c4_ev2])).Pairwise
      (fun a b => a.t_check + 30 ≤ b.t_check) := by
  have ht : TimesOk [c4_ev1, c4_ev2] := by
    constructor
    · intro e he
      rcases List.mem_cons.mp he with rfl | he2
      · norm_num [c4_ev1]
      · rcases List.mem_cons.mp he2 with rfl | he3
        · norm_num [c4_ev2]
        · simp at he3
    · refine List.pairwise_cons.mpr ⟨?_, ?_⟩
      · intro b hb
        rcases List.mem_cons.mp hb with rfl | hb2
        · norm_num [c4_ev1, c4_ev2]
        · simp at hb2
      · simp
  exact ⟨ht, (C4_rate_limit_and_drop 30 [c4_ev1, c4_ev2] ("w", "buy") ht).1⟩

/-- Helper: membership in the keys of a dict after an insert. -/
theorem dictKeys_insert_mem {κ α : Type} [DecidableEq κ]
    (m : List (κ × α)) (k : κ) (v : α) (a : κ) :
    a ∈ dictKeys (dictInsert m k v) ↔ a ∈ dictKeys m ∨ a = k := by
  induction m with
  | nil => simp [dictInsert, dictKeys]
  | cons e rest ih =>
      obtain ⟨k1, v1⟩ := e
      rw [dictInsert]
      by_cases h : k1 = k
      · rw [if_pos h]
        subst h
        simp only [dictKeys, List.map_cons, List.mem_cons]
        tauto
      · rw [if_neg h]
        simp only [dictKeys, List.map_cons, List.mem_cons]
        simp only [dictKeys] at ih
        tauto

/-- Helper: `dictInsert` preserves duplicate-freedom of the keys. -/
theorem dictKeys_insert_nodup {κ α : Type} [DecidableEq κ]
    (m : List (κ × α)) (k : κ) (v : α) (h : (dictKeys m).Nodup) :
    (dictKeys (dictInsert m k v)).Nodup := by
  induction m with
  | nil => simp [dictInsert, dictKeys]
  | cons e rest ih =>
      obtain ⟨k1, v1⟩ := e
      simp only [dictKeys, List.map_cons, List.nodup_cons] at h
      obtain ⟨hnotin, hrest⟩ := h
      rw [dictInsert]
      by_cases hk : k1 = k
      · rw [if_pos hk]
        subst hk
        simp only [dictKeys, List.map_cons, List.nodup_cons]
        exact ⟨hnotin, hrest⟩
      · rw [if_neg hk]
        simp only [dictKeys, List.map_cons, List.nodup_cons]
        constructor
        · intro hmem
          rcases (dictKeys_insert_mem rest k v k1).mp hmem with h1 | h1
          · exact hnotin h1
          · exact hk h1
        · exact ih hrest

/-- Helper: a key found in a fold of `dictInsert` either was in the base
dict or is one of the folded keys. -/
theorem dictLookup_foldl_insert_isSome {κ α : Type} [DecidableEq κ]
    (l : List (κ × α)) :
    ∀ (m0 : List (κ × α)) (key : κ),
      (dictLookup (l.foldl (fun m kv => dictInsert m kv.1 kv.2) m0) key).isSome
        = true →
      (dictLookup m0 key).isSome = true ∨ key ∈ l.map Prod.fst := by
  induction l with
  | nil =>
      intro m0 key h
      exact Or.inl h
  | cons kv l ih =>
      intro m0 key h
      rcases ih (dictInsert m0 kv.1 kv.2) key h with h2 | h2
      · by_cases hk : key = kv.1
        · exact Or.inr (by simp [hk])
        · rw [dictLookup_insert_ne _ _ _ _ hk] at h2
          exact Or.inl h2
      · exact Or.inr (by simp [h2])

/-- Helper: every instrument mapped by `set_market` is one of the window's
token ids. -/
theorem market_a2o_isSome_mem (m : MarketInfo) (aid : String)
    (h : (dictLookup (market_a2o m) aid).isSome = true) : aid ∈ m.token_ids := by
  simp only [market_a2o] at h
  rcases dictLookup_foldl_insert_isSome _ [] aid h with h2 | h2
  · simp [dictLookup] at h2
  · simp only [List.mem_map] at h2
    obtain ⟨p, hp, hpa⟩ := h2
    obtain ⟨a, b⟩ := p
    rw [← hpa]
    exact (List.of_mem_zip hp).1

/-- Helper: growing the handled-calls history preserves the detector
invariant. -/
theorem detector_inv_append (m : MarketInfo) (hist hist2 : List UpdateCall)
    (st : RealtimeArbitrage) (h : DetectorInv m hist st) :
    DetectorInv m (hist ++ hist2) st := by
  obtain ⟨h1, h2, h3, h4⟩ := h
  refine ⟨h1, h2, h3, fun aid ha => ⟨(h4 aid ha).1, ?_⟩⟩
  obtain ⟨d, hd, hda⟩ := (h4 aid ha).2
  exact ⟨d, List.mem_append_left _ hd, hda⟩

/-- Helper: `set_market` establishes the detector invariant for the new
window with an empty history. -/
theorem set_market_inv (st0 : RealtimeArbitrage) (m : MarketInfo) :
    DetectorInv m [] (set_market st0 m) := by
  refine ⟨rfl, rfl, by simp [set_market, dictKeys], ?_⟩
  intro aid ha
  simp [set_market, dictKeys] at ha

/-- Helper: one `update_book` call preserves the detector invariant,
extending the history by the call. -/
theorem update_book_inv (m : MarketInfo) (hist : List UpdateCall)
    (st : RealtimeArbitrage) (c : UpdateCall) (h : DetectorInv m hist st) :
    DetectorInv m (hist ++ [c])
      (update_book st c.slug c.ts_ms c.asset_id c.bids c.asks) := by
  obtain ⟨h1, h2, h3, h4⟩ := h
  by_cases hg1 : c.asset_id = "" ∨ ¬ some c.slug = st.current_slug
  · rw [update_book, if_pos hg1]
    exact detector_inv_append m hist [c] st ⟨h1, h2, h3, h4⟩
  · by_cases hg2 : (dictLookup st.asset_to_outcome c.asset_id).isNone = true
    · rw [update_book, if_neg hg1, if_pos hg2]
      exact detector_inv_append m hist [c] st ⟨h1, h2, h3, h4⟩
    · push_neg at hg1
      obtain ⟨hid, hslug⟩ := hg1
      have hmap : (dictLookup st.asset_to_outcome c.asset_id).isSome = true := by
        cases hopt : dictLookup st.asset_to_outcome c.asset_id with
        | none => exact absurd (by simp [hopt]) hg2
        | some o => simp
      have hcslug : c.slug = m.slug := by
        rw [h1] at hslug
        injection hslug
      have hbsinv : DetectorInv m (hist ++ [c])
          { st with book_state :=
              dictInsert st.book_state c.asset_id (best_bid_ask c.bids c.asks) } := by
        refine ⟨h1, h2, dictKeys_insert_nodup _ _ _ h3, ?_⟩
        intro aid ha
        rcases (dictKeys_insert_mem _ _ _ aid).mp ha with ha2 | ha2
        · refine ⟨(h4 aid ha2).1, ?_⟩
          obtain ⟨d, hd, hda⟩ := (h4 aid ha2).2
          exact ⟨d, List.mem_append_left _ hd, hda⟩
        · subst ha2
          constructor
          · rw [← h2]
            exact hmap
          · exact ⟨c, List.mem_append_right _ (by simp), rfl, hcslug⟩
      have hpass := update_book_pass st c.slug c.ts_ms c.asset_id c.bids c.asks
        hid hslug hmap
      simp only [hpass]
      split
      · exact hbsinv
      · obtain ⟨i1, i2, i3, i4⟩ := hbsinv
        exact ⟨i1, i2, i3, i4⟩

/-- Helper: a run of `update_book` calls preserves the detector invariant. -/
theorem run_updates_inv (m : MarketInfo) (calls : List UpdateCall) :
    ∀ (st : RealtimeArbitrage) (hist : List UpdateCall),
      DetectorInv m hist st →
      DetectorInv m (hist ++ calls) (run_updates st calls) := by
  induction calls with
  | nil =>
      intro st hist h
      simpa [run_updates] using h
  | cons c cs ih =>
      intro st hist h
      have hstep := update_book_inv m hist st c h
      have h2 := ih (update_book st c.slug c.ts_ms c.asset_id c.bids c.asks)
        (hist ++ [c]) hstep
      have hr : run_updates st (c :: cs) =
          run_updates (update_book st c.slug c.ts_ms c.asset_id c.bids c.asks) cs :=
        rfl
      rw [hr]
      simpa [List.append_assoc] using h2

/-- Helper: `run_updates` splits over list append. -/
theorem run_updates_append (st : RealtimeArbitrage) (l1 l2 : List UpdateCall) :
    run_updates st (l1 ++ l2) = run_updates (run_updates st l1) l2 := by
  simp [run_updates, List.foldl_append]

/-- Helper: a call that changed the signal queue left the book state with
exactly two entries. -/
theorem update_book_signal_grow (st : RealtimeArbitrage) (c : UpdateCall)
    (h : (update_book st c.slug c.ts_ms c.asset_id c.bids c.asks).signal_q ≠
      st.signal_q) :
    (update_book st c.slug c.ts_ms c.asset_id c.bids c.asks).book_state.length
      = 2 := by
  by_cases hg1 : c.asset_id = "" ∨ ¬ some c.slug = st.current_slug
  · rw [update_book, if_pos hg1] at h
    exact absurd rfl h
  · by_cases hg2 : (dictLookup st.asset_to_outcome c.asset_id).isNone = true
    · rw [update_book, if_neg hg1, if_pos hg2] at h
      exact absurd rfl h
    · push_neg at hg1
      obtain ⟨hid, hslug⟩ := hg1
      have hmap : (dictLookup st.asset_to_outcome c.asset_id).isSome = true := by
        cases hopt : dictLookup st.asset_to_outcome c.asset_id with
        | none => exact absurd (by simp [hopt]) hg2
        | some o => simp
      have hpass := update_book_pass st c.slug c.ts_ms c.asset_id c.bids c.asks
        hid hslug hmap
      simp only [hpass] at h ⊢
      split at h
      · exact absurd rfl h
      · rename_i hc
        rw [if_neg hc]
        push_neg at hc
        exact hc.1

/-- Helper: a duplicate-free list of length two over a two-element universe
contains both elements. -/
theorem two_element_cover {α : Type} [DecidableEq α] (l : List α) (t1 t2 : α)
    (hnodup : l.Nodup) (hsub : ∀ a ∈ l, a ∈ [t1, t2]) (hlen : l.length = 2) :
    t1 ∈ l ∧ t2 ∈ l := by
  have hsub2 : l.toFinset ⊆ ([t1, t2] : List α).toFinset := by
    intro a ha
    rw [List.mem_toFinset] at ha ⊢
    exact hsub a ha
  have hcard1 : l.toFinset.card = 2 := by
    rw [List.toFinset_card_of_nodup hnodup, hlen]
  have hcard2 : ([t1, t2] : List α).toFinset.card ≤ 2 := by
    calc ([t1, t2] : List α).toFinset.card ≤ ([t1, t2] : List α).length :=
          List.toFinset_card_le _
      _ = 2 := rfl
  have heq : l.toFinset = ([t1, t2] : List α).toFinset :=
    Finset.eq_of_subset_of_card_le hsub2 (by omega)
  constructor
  · rw [← List.mem_toFinset, heq, List.mem_toFinset]
    simp
  · rw [← List.mem_toFinset, heq, List.mem_toFinset]
    simp

/-- C7: after `set_market` for a window with two instrument ids, the book
state never holds more than two entries, and a call that enqueues a signal
(grows the signal queue) can only happen once each of the window's two
instruments has been observed — tagged with the window's slug — by some
call handled since the activation. -/
theorem C7_book_state_bound_and_both_observed (st0 : RealtimeArbitrage)
    (m : MarketInfo) (t1 t2 : String) (htok : m.token_ids = [t1, t2]) :
    (∀ calls, (run_updates (set_market st0 m) calls).book_state.length ≤ 2) ∧
    (∀ calls c,
      (run_updates (set_market st0 m) (calls ++ [c])).signal_q.length >
        (run_updates (set_market st0 m) calls).signal_q.length →
      (∃ d ∈ calls ++ [c], d.asset_id = t1 ∧ d.slug = m.slug) ∧
      (∃ d ∈ calls ++ [c], d.asset_id = t2 ∧ d.slug = m.slug)) := by
  have hbase := set_market_inv st0 m
  constructor
  · intro calls
    obtain ⟨-, -, hnodup, hkeys⟩ :=
      run_updates_inv m calls (set_market st0 m) [] hbase
    have hsub : ∀ a ∈ dictKeys (run_updates (set_market st0 m) calls).book_state,
        a ∈ [t1, t2] := by
      intro a ha
      have hmem := market_a2o_isSome_mem m a (hkeys a ha).1
      rwa [htok] at hmem
    have hlen : (dictKeys (run_updates (set_market st0 m) calls).book_state).length
        ≤ ([t1, t2] : List String).length :=
      List.Subperm.length_le (hnodup.subperm hsub)
    simpa [dictKeys] using hlen
  · intro calls c hgrow
    have hdecomp : run_updates (set_market st0 m) (calls ++ [c]) =
        update_book (run_updates (set_market st0 m) calls) c.slug c.ts_ms
          c.asset_id c.bids c.asks := by
      rw [run_updates_append]
      rfl
    have hne : (update_book (run_updates (set_market st0 m) calls) c.slug c.ts_ms
        c.asset_id c.bids c.asks).signal_q ≠
        (run_updates (set_market st0 m) calls).signal_q := by
      intro he
      rw [hdecomp, he] at hgrow
      omega
    have hlen2 := update_book_signal_grow (run_updates (set_market st0 m) calls)
      c hne
    obtain ⟨-, -, hnodup, hkeys⟩ :=
      run_updates_inv m (calls ++ [c]) (set_market st0 m) [] hbase
    rw [List.nil_append] at hkeys
    have hsub : ∀ a ∈ dictKeys
        (run_updates (set_market st0 m) (calls ++ [c])).book_state,
        a ∈ [t1, t2] := by
      intro a ha
      have hmem := market_a2o_isSome_mem m a (hkeys a ha).1
      rwa [htok] at hmem
    have hklen : (dictKeys
        (run_updates (set_market st0 m) (calls ++ [c])).book_state).length = 2 := by
      rw [← hdecomp] at hlen2
      simpa [dictKeys] using hlen2
    obtain ⟨ht1, ht2⟩ := two_element_cover _ t1 t2 hnodup hsub hklen
    exact ⟨(hkeys t1 ht1).2, (hkeys t2 ht2).2⟩

/-- Witness for C7: on a fresh Up/Down window with two instrument ids, the
book state (empty right after activation) has at most two entries. -/
theorem C7_witness :
    (run_updates (set_market { webhook_url := "hook" }
      ⟨"w", "", 0, ["U", "D"], ["Up", "Down"]⟩) []).book_state.length ≤ 2 :=
  (C7_book_state_bound_and_both_observed { webhook_url := "hook" }
    ⟨"w", "", 0, ["U", "D"], ["Up", "Down"]⟩ "U" "D" rfl).1 []

/-- C10: calling `run_ws` with an empty instrument-id list returns
immediately — terminated, with an empty event trace: no connection is
opened, no subscribe message is sent, no reader runs and hence no handler
is invoked — regardless of how the connection loop could have unfolded. -/
theorem C10_run_ws_empty_assets (attempts : List WsAttempt) :
    run_ws [] attempts = ([], true) := by
  simp [run_ws]

/-- C6 as stated is false: the code runs `delta = endTimeUtc - now; if
delta <= 0: delta = 1`, which differs from `max(1, endTimeUtc - now)` when
the remaining time is strictly between 0 and 1 — at half a second remaining
the Scheduler sleeps half a second, not one second. -/
theorem C6_counterexample :
    sleep_seconds (1/2) 0 = 1/2 ∧ sleep_seconds_spec (1/2) 0 = 1 ∧
      ¬ sleep_seconds (1/2) 0 = sleep_seconds_spec (1/2) 0 := by
  norm_num [sleep_seconds, sleep_seconds_spec, max_def]

/-- C6 amended: for every discovered window the Scheduler suspends for
`endTimeUtc - now` seconds when that is positive (even when it is below one
second) and for 1 second when it is not, immediately before tearing down
the window's feed subscription; the suspension equals `max(1, endTimeUtc -
now)` exactly when the remaining time is not strictly between 0 and 1. -/
theorem C6_sleep_then_teardown (m : MarketInfo) (now : ℚ) :
    (0 < m.end_date_ts - now →
      sleep_seconds m.end_date_ts now = m.end_date_ts - now) ∧
    (m.end_date_ts - now ≤ 0 → sleep_seconds m.end_date_ts now = 1) ∧
    (sleep_seconds m.end_date_ts now = sleep_seconds_spec m.end_date_ts now ↔
      ¬ (0 < m.end_date_ts - now ∧ m.end_date_ts - now < 1)) ∧
    scheduler_iteration m now =
      [.save_market_meta m.slug, .start_ws m.token_ids,
       .sleep_for (sleep_seconds m.end_date_ts now), .stop_ws] := by
  refine ⟨?_, ?_, ?_, rfl⟩
  · intro h
    simp [sleep_seconds, not_le.mpr h]
  · intro h
    simp [sleep_seconds, h]
  · unfold sleep_seconds sleep_seconds_spec
    rcases le_or_lt (m.end_date_ts - now) 0 with hd | hd
    · have hmax : max 1 (m.end_date_ts - now) = 1 :=
        max_eq_left (hd.trans zero_le_one)
      simp [hd, hmax, not_lt.mpr hd]
    · rcases lt_or_le (m.end_date_ts - now) 1 with h1 | h1
      · have hmax : max 1 (m.end_date_ts - now) = 1 := max_eq_left h1.le
        simp only [not_le.mpr hd, if_false, hmax]
        constructor
        · intro h
          exact absurd h (ne_of_lt h1)
        · intro h
          exact absurd ⟨hd, h1⟩ h
      · have hmax : max 1 (m.end_date_ts - now) = m.end_date_ts - now :=
          max_eq_right h1
        simp [not_le.mpr hd, hmax, not_lt.mpr h1]

/-- Witness for C6: a window ending 7 seconds from now sleeps exactly 7
seconds. -/
theorem C6_witness : sleep_seconds 10 3 = 10 - 3 :=
  (C6_sleep_then_teardown ⟨"w", "", 10, [], []⟩ 3).1 (by norm_num)

/-- C9 as stated is false on the code: an error of the read loop while
subscribed is caught inside `reader` (clob_ws.py lines 149-150) and the
connection loop immediately reconnects and re-subscribes with no 5-second
wait (the `await asyncio.sleep(5)` is reached only from the `except` branch
around connection establishment); moreover a keep-alive failure does not
revert the connection at all — `ping_loop` swallows its own exception and
the session continues unchanged. -/
theorem C9_counterexample :
    (run_ws ["U", "D"] c9_attempts).1 =
      [.subscribe_sent ["U", "D"], .reader_error,
       .subscribe_sent ["U", "D"], .reader_stopped] ∧
    ¬ Sleep5BetweenErrorAndResubscribe (run_ws ["U", "D"] c9_attempts).1 ∧
    attempt_events ["U", "D"] ⟨false, .session .closed true, false⟩ =
      attempt_events ["U", "D"] ⟨false, .session .closed false, false⟩ := by
  refine ⟨by decide, ?_, by decide⟩
  intro h
  obtain ⟨k, hk1, hk2, -⟩ := h 1 2 ["U", "D"] (by norm_num) (by decide) (by decide)
  omega

/-- C9 amended: an error during connection establishment (the connect or the
subscribe send) is followed by a 5-second wait before the retry; an error of
the read loop while subscribed (and likewise a clean close) leads to an
immediate reconnect and re-subscribe for the same instrument set with no
wait, and a keep-alive failure does not end the session at all; in every
case the retries are unbounded — the loop terminates only when the stop
event is observed or the task is cancelled. -/
theorem C9_reconnect_loop (ids : List String) (attempts : List WsAttempt) :
    (∀ a : WsAttempt, a.outcome = .connect_fail →
      attempt_events ids a = [.connect_error, .sleep5]) ∧
    (∀ (e : SessionEnd) (pf sb sa : Bool),
      attempt_events ids ⟨sb, .session e pf, sa⟩ =
        [.subscribe_sent ids, session_end_event e] ∧
      WsEvent.sleep5 ∉ attempt_events ids ⟨sb, .session e pf, sa⟩) ∧
    ((run_ws_loop ids attempts).2 = true →
      ∃ a ∈ attempts,
        a.stop_before = true ∨ a.stop_after = true ∨ a.outcome = .cancelled) ∧
    ((∀ a ∈ attempts,
        a.stop_before = false ∧ a.stop_after = false ∧ a.outcome ≠ .cancelled) →
      (run_ws_loop ids attempts).2 = false) := by
  refine ⟨?_, ?_, ?_, ?_⟩
  · intro a ha
    simp [attempt_events, ha]
  · intro e pf sb sa
    refine ⟨rfl, ?_⟩
    cases e <;> simp [attempt_events, session_end_event]
  · induction attempts with
    | nil => simp [run_ws_loop]
    | cons a rest ih =>
        intro h
        by_cases hsb : a.stop_before = true
        · exact ⟨a, List.mem_cons_self .., Or.inl hsb⟩
        · by_cases hc : a.outcome = .cancelled
          · exact ⟨a, List.mem_cons_self .., Or.inr (Or.inr hc)⟩
          · by_cases hsa : a.stop_after = true
            · exact ⟨a, List.mem_cons_self .., Or.inr (Or.inl hsa)⟩
            · rw [run_ws_loop] at h
              simp only [hsb, hc, hsa, if_false, if_neg] at h
              obtain ⟨b, hb, hbb⟩ := ih h
              exact ⟨b, List.mem_cons_of_mem a hb, hbb⟩
  · induction attempts with
    | nil => intro _; simp [run_ws_loop]
    | cons a rest ih =>
        intro h
        obtain ⟨h1, h2, h3⟩ := h a (List.mem_cons_self ..)
        rw [run_ws_loop]
        simp only [h1, h2, h3, if_false, if_neg]
        exact ih fun b hb => h b (List.mem_cons_of_mem a hb)

/-- Witness for C9: a loop history whose single attempt was stopped at the
top check did terminate, and the termination indeed came from a stop or a
cancellation. -/
theorem C9_witness :
    ∃ a ∈ [(⟨true, AttemptOutcome.connect_fail, false⟩ : WsAttempt)],
      a.stop_before = true ∨ a.stop_after = true ∨ a.outcome = .cancelled :=
  (C9_reconnect_loop ["U"]
    [⟨true, AttemptOutcome.connect_fail, false⟩]).2.2.1 (by decide)

/-- C8: an `update_book` call whose slug is not the active window's slug, or
whose instrument id is not in the active instrument-to-outcome map, returns
before touching anything: the whole detector state — book state, map,
slug, signal queue, rate-limit table — is unchanged and no signal is
enqueued. -/
theorem C8_update_book_frame (st : RealtimeArbitrage) (slug : String)
    (ts_ms : Int) (asset_id : String) (bids asks : List Level)
    (h : ¬ some slug = st.current_slug ∨
      dictLookup st.asset_to_outcome asset_id = none) :
    update_book st slug ts_ms asset_id bids asks = st := by
  unfold update_book
  rcases h with h | h
  · rw [if_pos (Or.inr h)]
  · by_cases he : asset_id = "" ∨ ¬ some slug = st.current_slug
    · rw [if_pos he]
    · rw [if_neg he]
      simp [h]

/-- Witness for C8: after switching from window w1 to window w2, an update
tagged with w1's slug and instrument leaves the detector state (including
the signal queue) exactly as it was. -/
theorem C8_witness :
    update_book
      (set_market
        (set_market { webhook_url := "hook" } ⟨"w1", "", 0, ["A", "B"], ["Up", "Down"]⟩)
        ⟨"w2", "", 0, ["U", "D"], ["Up", "Down"]⟩)
      "w1" 0 "A" [] [] =
      set_market
        (set_market { webhook_url := "hook" } ⟨"w1", "", 0, ["A", "B"], ["Up", "Down"]⟩)
        ⟨"w2", "", 0, ["U", "D"], ["Up", "Down"]⟩ :=
  C8_update_book_frame _ _ _ _ _ _ (Or.inl (by decide))

/-- C1 as stated describes the intended wiring, but the code lacks it: the
`Scheduler` of scheduler.py holds no detector reference and accepts none —
while `run.py` `main` passes a `realtime_arbitrage` keyword argument that
`Scheduler.__init__` rejects (a `TypeError` at startup) — and neither the
window activation (`_switch_to`) nor the book handler made by
`_make_on_book` performs a `set_market` call or forwards anything to
`update_book`. -/
theorem C1_scheduler_missing_detector_wiring :
    "realtime_arbitrage" ∈ run_main_scheduler_args ∧
    "realtime_arbitrage" ∉ scheduler_init_params ∧
    (∀ (m : MarketInfo) (now : ℚ) (s : String),
      SchedAction.set_market_call s ∉ scheduler_iteration m now) ∧
    (∀ (cur : String) (p : BookPayload) (s a : String),
      HandlerEffect.update_book_call s a ∉ on_book cur p) := by
  refine ⟨by decide, by decide, ?_, ?_⟩
  · intro m now s
    simp [scheduler_iteration]
  · intro cur p s a
    simp [on_book]

/-- C2 as stated is what the spec demands, but `stop_writer` defeats it: it
sets the stop flag and then immediately cancels the writer task, which is
parked at the `await asyncio.sleep(0.1)` inside the loop; the
`CancelledError` unwinds `_writer_loop` before the final `_flush_buffers`
on line 212 can run.  Concretely: one snapshot row sits in the buffer after
a quiet iteration; the cancel exit leaves the state untouched and writes no
file (the row is lost), whereas the stop-flag exit the code's final-flush
line intends would have written it. -/
theorem C2_stop_writer_skips_final_flush :
    buf_total c2_state.snap_buf = 1 ∧
    writer_loop_exit stop_writer_exit c2_state = c2_state ∧
    (writer_loop_exit stop_writer_exit c2_state).snap_files = [] ∧
    (writer_loop_exit (.via_stop_flag 1) c2_state).snap_files =
      [⟨"w1", 1, [c2_row]⟩] := by
  have hstep : c2_state =
      { snap_buf := [("w1", [c2_row])], tick_buf := [], trade_buf := [],
        last_flush := 0, snap_files := [], tick_files := [], trade_files := [] } := by
    unfold c2_state writer_step writer_defaults writer_init
    norm_num [buf_drain, buf_append, buf_total, c2_row]
  refine ⟨?_, rfl, ?_, ?_⟩
  · rw [hstep]
    simp [buf_total]
  · rw [hstep]
    simp [writer_loop_exit, stop_writer_exit]
  · rw [hstep]
    simp [writer_loop_exit, flush_buffers, buf_flush]

end Poly5m
